import Mathlib

/-!
# CHIP-8 interpreter (`src/main.c`): shallow embedding and verified properties

The C program keeps the whole machine in one `Machine` struct and executes one
instruction per call of `run_instruction`.  The embedding below follows the C
text case by case.

Modelling conventions

* `unsigned int` fields (`I`, `PC`, `SP`, `Stack[i]`) are natural numbers;
  every C operation that can wrap is written with an explicit `% 2 ^ 32`.
  `unsigned char` cells (`VN[i]`, `memory[i]`) are natural numbers; every C
  store that truncates is written with an explicit `% 256` (or the mask the
  source uses).
* C arrays are total functions on `Nat` together with the declared length of
  the array.  An access whose index is not below the declared length is
  undefined behaviour in C; the embedding makes it the explicit outcome
  `Outcome.undefined`.  Register indices are always `(opcode & 0x0F00) >> 8`
  or `(opcode & 0x00F0) >> 4`, hence below 16, and the stack is always
  indexed by `SP & 0xF`; those accesses need no check.
* `opcode` is declared `short` in C.  It is only ever used as
  `opcode & mask` with a non-negative mask below `2 ^ 16`, and for such masks
  the result on the sign-extended `short` equals the result on the unsigned
  16-bit word, so the embedding keeps the 16-bit word as a natural number.
* `printf` calls have no effect on the machine and are left out.  The value
  returned by `rand()` and the key-down event awaited by `Fx0A` come from the
  host; they are the fields of `Env`.
-/

namespace Chip8

/-! ## Constants (`#define`s and array lengths) -/

/-- `#define GAME_START 0x200` -/
def GAME_START : Nat := 0x200

/-- `#define GAME_END 0xFFF` -/
def GAME_END : Nat := 0xFFF

/-- Length of `unsigned char memory[0xFFF]` in `Machine`. -/
def MEMORY_SIZE : Nat := 0xFFF

/-- Length of the first dimension of `bool screen[64][32]`. -/
def SCREEN_COLS : Nat := 64

/-- Length of the second dimension of `bool screen[64][32]`. -/
def SCREEN_ROWS : Nat := 32

/-- Length of `bool keypad[16]`. -/
def KEYPAD_SIZE : Nat := 16

/-- Modulus of `unsigned int` arithmetic. -/
def UINT_MOD : Nat := 2 ^ 32

/-- The table `KEYMAP[16]` (SDL key codes are the ASCII codes of the keys;
the default, non-`GERMAN` build). -/
def KEYMAP : List Int :=
  [120, 49, 50, 51, 113, 119, 101, 97, 115, 100, 122, 99, 52, 114, 102, 118]

/-- `#define FONT_SIZE 80` -/
def FONT_SIZE : Nat := 80

/-- The table `FONTSET[80]`: sixteen glyphs of five bytes each. -/
def FONTSET : List Nat :=
  [0xF0, 0x90, 0x90, 0x90, 0xF0,
   0x20, 0x60, 0x20, 0x20, 0x70,
   0xF0, 0x10, 0xF0, 0x80, 0xF0,
   0xF0, 0x10, 0xF0, 0x10, 0xF0,
   0x90, 0x90, 0xF0, 0x10, 0x10,
   0xF0, 0x80, 0xF0, 0x10, 0xF0,
   0xF0, 0x80, 0xF0, 0x90, 0xF0,
   0xF0, 0x10, 0x20, 0x40, 0x40,
   0xF0, 0x90, 0xF0, 0x90, 0xF0,
   0xF0, 0x90, 0xF0, 0x10, 0xF0,
   0xF0, 0x90, 0xF0, 0x90, 0x90,
   0xE0, 0x90, 0xE0, 0x90, 0xE0,
   0xF0, 0x80, 0x80, 0x80, 0xF0,
   0xE0, 0x90, 0x90, 0x90, 0xE0,
   0xF0, 0x80, 0xF0, 0x80, 0xF0,
   0xF0, 0x80, 0xF0, 0x80, 0x80]

/-! ## Machine state -/

/-- The struct `Machine`. -/
structure Machine where
  I : Nat
  PC : Nat
  SP : Nat
  DT : Nat
  ST : Nat
  Stack : Nat → Nat
  VN : Nat → Nat
  memory : Nat → Nat
  screen : Nat → Nat → Bool
  keypad : Nat → Bool
  draw_screen : Bool

/-- What the host supplies to one call of `run_instruction`: the value of
`rand()`, and the key code of the first `SDL_KEYDOWN` event delivered to the
polling loop of `Fx0A` (`none` when no such event ever arrives). -/
structure Env where
  rand : Nat
  keydown : Option Int

/-- Result of one call of `run_instruction`. -/
inductive Outcome where
  /-- The call returned `code` and left the machine in state `m`. -/
  | ret (code : Int) (m : Machine)
  /-- The call indexed an array outside its declared length. -/
  | undefined
  /-- The call never returns (the polling loop of `Fx0A` sees no key-down). -/
  | blocked

/-- Array store `a[i] = v`. -/
def setAt {α : Type} (a : Nat → α) (i : Nat) (v : α) : Nat → α :=
  fun k => if k = i then v else a k

/-- Two-dimensional array store `a[i][j] = v`. -/
def setAt2 {α : Type} (a : Nat → Nat → α) (i j : Nat) (v : α) : Nat → Nat → α :=
  fun k l => if k = i ∧ l = j then v else a k l

/-- The state `main` builds before the ROM and the font are loaded
(`Machine machine = {.PC = GAME_START, ...}` followed by the `memset`s). -/
def initMachine : Machine :=
  { I := 0, PC := GAME_START, SP := 0, DT := 0, ST := 0,
    Stack := fun _ => 0, VN := fun _ => 0, memory := fun _ => 0,
    screen := fun _ _ => false, keypad := fun _ => false, draw_screen := false }

/-- Copy loop `memory[base + i] = bytes[i]` for `i = 0, 1, ...`. -/
def writeBytes (mem : Nat → Nat) (base : Nat) : List Nat → Nat → Nat
  | [] => mem
  | b :: bs => writeBytes (setAt mem base b) (base + 1) bs

/-- The state in which `main` enters its loop when the program bytes `rom`
have been stored from `GAME_START` on: the initial state, the program, and
then the font copied by `for (i = 0; i < FONT_SIZE; i++) memory[i] = FONTSET[i]`. -/
def bootMachine (rom : List Nat) : Machine :=
  { initMachine with
    memory := writeBytes (writeBytes initMachine.memory GAME_START rom) 0 FONTSET }

/-! ## `draw_instruction` -/

/-- Body of the inner loop of `draw_instruction` for row `i`, bit `j`:
`if (pixel & (0x80 >> j)) { if (screen[j+xc][i+yc]) VN[0xF] = true;
screen[j+xc][i+yc] ^= 1; }`. -/
def draw_bit (pixel xc yc i j : Nat) (m : Machine) : Option Machine :=
  if pixel &&& (0x80 >>> j) ≠ 0 then
    if j + xc < SCREEN_COLS ∧ i + yc < SCREEN_ROWS then
      let m1 := if m.screen (j + xc) (i + yc) then { m with VN := setAt m.VN 0xF 1 } else m
      some { m1 with screen := setAt2 m1.screen (j + xc) (i + yc) (!(m1.screen (j + xc) (i + yc))) }
    else none
  else some m

/-- The first `k` iterations (`j = 0 .. k-1`) of the inner loop
`for (j = 0; j < 8; j++)`. -/
def draw_cols (pixel xc yc i : Nat) : Nat → Machine → Option Machine
  | 0, m => some m
  | k + 1, m =>
    match draw_cols pixel xc yc i k m with
    | some m1 => draw_bit pixel xc yc i k m1
    | none => none

/-- Body of the outer loop for row `i`: `pixel = memory[I + i]`, then the
inner loop over the eight bits. -/
def draw_row (xc yc i : Nat) (m : Machine) : Option Machine :=
  if (m.I + i) % UINT_MOD < MEMORY_SIZE then
    draw_cols (m.memory ((m.I + i) % UINT_MOD)) xc yc i 8 m
  else none

/-- The first `k` iterations (`i = 0 .. k-1`) of the outer loop
`for (i = 0; i < n; i++)`. -/
def draw_rows (xc yc : Nat) : Nat → Machine → Option Machine
  | 0, m => some m
  | k + 1, m =>
    match draw_rows xc yc k m with
    | some m1 => draw_row xc yc k m1
    | none => none

/-- The function `draw_instruction(machine, x, y, n)`. -/
def draw_instruction (m : Machine) (x y n : Nat) : Option Machine :=
  let xc := m.VN x
  let yc := m.VN y
  draw_rows xc yc n { m with VN := setAt m.VN 0xF 0 }

/-! ## `run_instruction` -/

/-- Loop of `Fx55`: the first `k` iterations of
`for (i = 0; i <= x; i++) memory[I + i] = VN[i];`. -/
def store_regs : Nat → Machine → Option Machine
  | 0, m => some m
  | k + 1, m =>
    match store_regs k m with
    | some m1 =>
      if (m1.I + k) % UINT_MOD < MEMORY_SIZE then
        some { m1 with memory := setAt m1.memory ((m1.I + k) % UINT_MOD) (m1.VN k) }
      else none
    | none => none

/-- Loop of `Fx65`: the first `k` iterations of
`for (i = 0; i <= x; i++) VN[i] = memory[I + i];`. -/
def load_regs : Nat → Machine → Option Machine
  | 0, m => some m
  | k + 1, m =>
    match load_regs k m with
    | some m1 =>
      if (m1.I + k) % UINT_MOD < MEMORY_SIZE then
        some { m1 with VN := setAt m1.VN k (m1.memory ((m1.I + k) % UINT_MOD)) }
      else none
    | none => none

/-- Index of the first entry of `KEYMAP` equal to `sym`
(`for (i = 0; i < 16; i++) if (sym == KEYMAP[i]) { VN[x] = i; break; }`). -/
def keymap_index (sym : Int) : List Int → Nat → Option Nat
  | [], _ => none
  | k :: ks, i => if sym = k then some i else keymap_index sym ks (i + 1)

/-- The tail of `run_instruction` reached by every `break` out of the outer
switch: `machine->PC += 2; return 0;`. -/
def advance (m : Machine) : Outcome :=
  Outcome.ret 0 { m with PC := (m.PC + 2) % UINT_MOD }

/-- Lift of a loop result: continue at the tail of `run_instruction`. -/
def advanceOpt : Option Machine → Outcome
  | some m => advance m
  | none => Outcome.undefined

/-- Store `VN[0xF] = 1` or `VN[0xF] = 0` according to a condition. -/
def setFlag (m : Machine) (c : Bool) : Machine :=
  { m with VN := setAt m.VN 0xF (if c then 1 else 0) }

/-- Conversion of an `int` value to `unsigned char`. -/
def toUChar (v : Int) : Nat := (v % 256).toNat

/-- The outer `switch (opcode & 0xF000)` of `run_instruction` with all its
nested switches, applied to the fetched word. -/
def execute (env : Env) (opcode : Nat) (m : Machine) : Outcome :=
  let nnn := opcode &&& 0x0FFF
  let x := (opcode &&& 0x0F00) >>> 8
  let y := (opcode &&& 0x00F0) >>> 4
  let kk := opcode &&& 0x00FF
  let n := opcode &&& 0x000F
  let fam := opcode &&& 0xF000
  if fam = 0x0000 then
    if opcode &&& 0x00FF = 0x00E0 then
      advance { m with screen := fun _ _ => false }
    else if opcode &&& 0x00FF = 0x00EE then
      advance { m with PC := m.Stack (m.SP &&& 0xF), SP := (m.SP + UINT_MOD - 1) % UINT_MOD }
    else advance m
  else if fam = 0x1000 then
    Outcome.ret 0 { m with PC := nnn }
  else if fam = 0x2000 then
    let sp := (m.SP + 1) % UINT_MOD
    Outcome.ret 0 { m with SP := sp, Stack := setAt m.Stack (sp &&& 0xF) m.PC, PC := nnn }
  else if fam = 0x3000 then
    if m.VN x = kk then Outcome.ret 0 { m with PC := (m.PC + 2) % UINT_MOD }
    else Outcome.ret 0 m
  else if fam = 0x4000 then
    if m.VN x ≠ kk then advance { m with PC := (m.PC + 2) % UINT_MOD }
    else advance m
  else if fam = 0x5000 then
    if m.VN x = m.VN y then advance { m with PC := (m.PC + 2) % UINT_MOD }
    else advance m
  else if fam = 0x6000 then
    advance { m with VN := setAt m.VN x kk }
  else if fam = 0x7000 then
    advance { m with VN := setAt m.VN x ((m.VN x + kk) % 256) }
  else if fam = 0x8000 then
    if n = 0x0 then
      advance { m with VN := setAt m.VN x (m.VN y) }
    else if n = 0x1 then
      advance { m with VN := setAt m.VN x (m.VN x ||| m.VN y) }
    else if n = 0x2 then
      advance { m with VN := setAt m.VN x (m.VN x &&& m.VN y) }
    else if n = 0x3 then
      advance { m with VN := setAt m.VN x (m.VN x ^^^ m.VN y) }
    else if n = 0x4 then
      let sum := m.VN x + m.VN y
      let m1 := setFlag m (decide (sum > 255))
      advance { m1 with VN := setAt m1.VN x (sum &&& 0xFF) }
    else if n = 0x5 then
      let m1 := setFlag m (decide (m.VN x > m.VN y))
      advance { m1 with VN := setAt m1.VN x (toUChar ((m1.VN x : Int) - (m1.VN y : Int))) }
    else if n = 0x6 then
      let m1 := setFlag m (decide (m.VN x % 2 = 1))
      advance { m1 with VN := setAt m1.VN x (m1.VN x / 2) }
    else if n = 0x7 then
      let m1 := setFlag m (decide (m.VN y > m.VN x))
      advance { m1 with VN := setAt m1.VN x (toUChar ((m1.VN y : Int) - (m1.VN x : Int))) }
    else if n = 0xE then
      let m1 := setFlag m (decide (m.VN x % 2 = 1))
      advance { m1 with VN := setAt m1.VN x ((m1.VN x * 2) % 256) }
    else advance m
  else if fam = 0x9000 then
    if m.VN x ≠ m.VN y then advance { m with PC := (m.PC + 2) % UINT_MOD }
    else advance m
  else if fam = 0xA000 then
    advance { m with I := nnn }
  else if fam = 0xB000 then
    advance { m with PC := (nnn + m.VN 0x0) % UINT_MOD }
  else if fam = 0xC000 then
    advance { m with VN := setAt m.VN x ((env.rand % 254) &&& kk) }
  else if fam = 0xD000 then
    match draw_instruction m x y n with
    | some m1 => advance { m1 with draw_screen := true }
    | none => Outcome.undefined
  else if fam = 0xE000 then
    if opcode &&& 0x00FF = 0x009E then
      if m.VN x < KEYPAD_SIZE then
        if m.keypad (m.VN x) = true then advance { m with PC := (m.PC + 2) % UINT_MOD }
        else advance m
      else Outcome.undefined
    else if opcode &&& 0x00FF = 0x00A1 then
      if m.VN x < KEYPAD_SIZE then
        if m.keypad (m.VN x) ≠ true then advance { m with PC := (m.PC + 2) % UINT_MOD }
        else advance m
      else Outcome.undefined
    else advance m
  else if fam = 0xF000 then
    if opcode &&& 0x00FF = 0x0007 then
      advance { m with VN := setAt m.VN x (m.DT % 256) }
    else if opcode &&& 0x00FF = 0x000A then
      match env.keydown with
      | none => Outcome.blocked
      | some sym =>
        match keymap_index sym KEYMAP 0 with
        | some i => advance { m with VN := setAt m.VN x i }
        | none => advance m
    else if opcode &&& 0x00FF = 0x0015 then
      advance { m with DT := m.VN x }
    else if opcode &&& 0x00FF = 0x0018 then
      advance { m with ST := m.VN x }
    else if opcode &&& 0x00FF = 0x001E then
      advance { m with I := (m.I + m.VN x) % UINT_MOD }
    else if opcode &&& 0x00FF = 0x0029 then
      advance { m with I := (m.I + m.VN x) % UINT_MOD }
    else if opcode &&& 0x00FF = 0x0033 then
      if m.I < MEMORY_SIZE ∧ (m.I + 1) % UINT_MOD < MEMORY_SIZE
          ∧ (m.I + 2) % UINT_MOD < MEMORY_SIZE then
        let mem1 := setAt m.memory m.I (m.VN x / 100)
        let mem2 := setAt mem1 ((m.I + 1) % UINT_MOD) (m.VN x % 10)
        let mem3 := setAt mem2 ((m.I + 2) % UINT_MOD) (m.VN x % 10)
        advance { m with memory := mem3 }
      else Outcome.undefined
    else if opcode &&& 0x00FF = 0x0055 then
      advanceOpt (store_regs (x + 1) m)
    else if opcode &&& 0x00FF = 0x0065 then
      advanceOpt (load_regs (x + 1) m)
    else advance m
  else advance m

/-- The 16-bit word `memory[a] << 8 | memory[a + 1]`, when both cells are
inside the array `memory`. -/
def wordAt (m : Machine) (a : Nat) : Option Nat :=
  if a < MEMORY_SIZE ∧ (a + 1) % UINT_MOD < MEMORY_SIZE then
    some (((m.memory a <<< 8) ||| m.memory ((a + 1) % UINT_MOD)) % 65536)
  else none

/-- The function `run_instruction(machine)`. -/
def run_instruction (env : Env) (m : Machine) : Outcome :=
  if (m.PC + 1) % UINT_MOD > GAME_END then Outcome.ret (-1) m
  else
    match wordAt m m.PC with
    | some opcode => execute env opcode m
    | none => Outcome.undefined

/-! ## `load_rom` -/

/-- What the host file system answers to `load_rom`: whether `fopen`, `fseek`
and `malloc` succeed, and the bytes of the file (its length is what `ftell`
returns at the end of the file). -/
structure HostFile where
  fopen_ok : Bool
  fseek_ok : Bool
  malloc_ok : Bool
  bytes : List Nat

/-- The first `k` iterations of the copy loop of `load_rom`:
`while (i < rom_length) { memory[GAME_START + i] = rom_buffer[i]; i++; }`.
The `char` read from the buffer is stored as an `unsigned char`. -/
def copy_rom (rom : List Nat) : Nat → Machine → Option Machine
  | 0, m => some m
  | k + 1, m =>
    match copy_rom rom k m with
    | some m1 =>
      if GAME_START + k < MEMORY_SIZE then
        some { m1 with memory := setAt m1.memory (GAME_START + k) (rom.getD k 0 % 256) }
      else none
    | none => none

/-- The function `load_rom(machine, path)`; `file` is what the host has at
`path`.  The call `fread(rom_buffer, sizeof(int), rom_length, rom_file)` asks
for more bytes than the file holds and is taken to deliver all the bytes of
the file into the buffer. -/
def load_rom (m : Machine) (file : HostFile) : Outcome :=
  if ¬ file.fopen_ok then Outcome.ret (-1) m
  else if ¬ file.fseek_ok then Outcome.ret (-1) m
  else
    let rom_length := file.bytes.length
    if GAME_END - GAME_START < rom_length then Outcome.ret (-1) m
    else if ¬ file.malloc_ok then Outcome.ret (-1) m
    else
      match copy_rom file.bytes rom_length m with
      | some m1 => Outcome.ret 0 m1
      | none => Outcome.undefined

/-! ## The main loop: timers -/

/-- The macro `UPDATE_FREQUENCY`, `1 / 60 * 10000000` in `int` arithmetic. -/
def UPDATE_FREQUENCY : Int := 1 / 60 * 10000000

/-- The timer and flush block of the main loop, for `elapsed =
current_frame_time.tv_nsec - last_frame_time.tv_nsec`: when
`elapsed >= UPDATE_FREQUENCY`, `DT` and `ST` are decremented if positive and,
if `draw_screen` is set, the screen is rendered and `draw_screen` cleared. -/
def update_timers (elapsed : Int) (m : Machine) : Machine :=
  if elapsed ≥ UPDATE_FREQUENCY then
    let m1 := if m.DT > 0 then { m with DT := m.DT - 1 } else m
    let m2 := if m1.ST > 0 then { m1 with ST := m1.ST - 1 } else m1
    if m2.draw_screen = true then { m2 with draw_screen := false } else m2
  else m

/-! ## Concrete machines used to exercise the theorems -/

/-- The initial machine with `bytes` stored from address `base` on. -/
def machineWith (base : Nat) (bytes : List Nat) : Machine :=
  { initMachine with memory := writeBytes initMachine.memory base bytes }

/-- A host environment: `rand()` returns 7 and no key is pressed. -/
def quietEnv : Env := { rand := 7, keydown := none }

/-- A machine holding `2300` at `0x200` and `00EE` at `0x300`. -/
def callMachine : Machine :=
  { initMachine with
    memory := writeBytes (writeBytes initMachine.memory 0x200 [0x23, 0x00]) 0x300 [0x00, 0xEE] }

/-- A machine holding `8F14` at `0x200`, with `V[F] = 200` and `V[1] = 100`. -/
def addFlagMachine : Machine :=
  { initMachine with
    memory := writeBytes initMachine.memory 0x200 [0x8F, 0x14],
    VN := setAt (setAt initMachine.VN 0xF 200) 1 100 }

/-- A machine holding `8124` at `0x200`, with `V[1] = 200` and `V[2] = 100`. -/
def addMachine : Machine :=
  { initMachine with
    memory := writeBytes initMachine.memory 0x200 [0x81, 0x24],
    VN := setAt (setAt initMachine.VN 1 200) 2 100 }

/-- A machine holding `D011` at `0x200` and at `0x202`, the one-row sprite
`0x80` at `I = 0x300`, `V[0] = V[1] = 0`, and the pixel at column 0, row 0
already lit. -/
def litMachine : Machine :=
  { initMachine with
    memory := writeBytes (writeBytes initMachine.memory 0x200 [0xD0, 0x11, 0xD0, 0x11]) 0x300 [0x80],
    I := 0x300,
    screen := setAt2 initMachine.screen 0 0 true }

/-- The same program and sprite as `litMachine` on a blank screen. -/
def blankMachine : Machine :=
  { initMachine with
    memory := writeBytes (writeBytes initMachine.memory 0x200 [0xD0, 0x11, 0xD0, 0x11]) 0x300 [0x80],
    I := 0x300 }

/-- A machine holding `F255` at `0x200` and `F265` at `0x202`, with
`I = 0x300` and `V[0], V[1], V[2] = 7, 8, 9`. -/
def storeMachine : Machine :=
  { initMachine with
    memory := writeBytes initMachine.memory 0x200 [0xF2, 0x55, 0xF2, 0x65],
    I := 0x300,
    VN := setAt (setAt (setAt initMachine.VN 0 7) 1 8) 2 9 }

/-- The instruction word at the `PC` of the machine a call returned. -/
def nextWord : Outcome → Option Nat
  | Outcome.ret _ s => wordAt s s.PC
  | _ => none

/-- A machine holding `F033` at `0x200`, with `I = 0x300` and `V[0] = 234`. -/
def bcdMachine : Machine :=
  { initMachine with
    memory := writeBytes initMachine.memory 0x200 [0xF0, 0x33],
    I := 0x300,
    VN := setAt initMachine.VN 0 234 }

/-- The initial machine with the program `6005 7003 1200` at `GAME_START`
and the font in place. -/
def progMachine : Machine := bootMachine [0x60, 0x05, 0x70, 0x03, 0x12, 0x00]

/-- A machine holding `6A90` at `0x200` and `7A90` at `0x202`. -/
def loadAddMachine : Machine := machineWith 0x200 [0x6A, 0x90, 0x7A, 0x90]

/-- A machine holding `3001` at `0x200`, with `V[0] = 0` (so `V[0] ≠ kk`). -/
def skipNeMachine : Machine := machineWith 0x200 [0x30, 0x01]

/-- A machine holding `3000` at `0x200`, with `V[0] = 0` (so `V[0] = kk`). -/
def skipEqMachine : Machine := machineWith 0x200 [0x30, 0x00]

/-- A machine holding `00E0` at `0x200`, with one lit pixel and
`draw_screen` false (the state after the host flushed an earlier draw). -/
def clearMachine : Machine :=
  { initMachine with
    memory := writeBytes initMachine.memory 0x200 [0x00, 0xE0],
    screen := setAt2 initMachine.screen 3 4 true }

/-- A machine whose `PC` is `0xFFE`, the last value the fetch check lets
through, with `memory[0xFFE] = 0x12`. -/
def edgeMachine : Machine :=
  { initMachine with
    PC := 0xFFE,
    memory := writeBytes initMachine.memory 0xFFE [0x12] }

/-- A machine holding `00EE` at `0x200`, with `SP = 0` and `Stack[0] = 0x400`. -/
def returnEmptyMachine : Machine :=
  { initMachine with
    memory := writeBytes initMachine.memory 0x200 [0x00, 0xEE],
    Stack := setAt initMachine.Stack 0 0x400 }

/-- A machine holding `2300` at `0x200`, with `SP = 15`. -/
def callFullMachine : Machine :=
  { initMachine with
    memory := writeBytes initMachine.memory 0x200 [0x23, 0x00],
    SP := 15 }

/-- A file that opens, of 3584 bytes `0xAB`: exactly as long as the program
region `0x200 .. 0xFFF`. -/
def fullRegionFile : HostFile :=
  { fopen_ok := true, fseek_ok := true, malloc_ok := true, bytes := List.replicate 3584 0xAB }

/-- A machine holding `8125` at `0x200`, with `V[1] = V[2] = 5`. -/
def subEqualMachine : Machine :=
  { initMachine with
    memory := writeBytes initMachine.memory 0x200 [0x81, 0x25],
    VN := setAt (setAt initMachine.VN 1 5) 2 5 }

/-- A machine holding `8125` at `0x200`, with `V[1] = 3` and `V[2] = 5`. -/
def subBorrowMachine : Machine :=
  { initMachine with
    memory := writeBytes initMachine.memory 0x200 [0x81, 0x25],
    VN := setAt (setAt initMachine.VN 1 3) 2 5 }

/-- A machine holding `810E` at `0x200`, with `V[1] = 0x80`. -/
def shiftLeftMachine : Machine :=
  { initMachine with
    memory := writeBytes initMachine.memory 0x200 [0x81, 0x0E],
    VN := setAt initMachine.VN 1 0x80 }

/-- The booted machine (font in place) with the program `F129`, `V[1] = 2`
and `I = 0x300`. -/
def glyphMachine : Machine :=
  { bootMachine [0xF1, 0x29] with
    I := 0x300,
    VN := setAt initMachine.VN 1 2 }

/-- A machine holding `B300` at `0x200`, with `V[0] = 4`. -/
def jumpOffsetMachine : Machine :=
  { initMachine with
    memory := writeBytes initMachine.memory 0x200 [0xB3, 0x00],
    VN := setAt initMachine.VN 0 4 }

/-- A machine holding `5001` at `0x200` (a word of no table row; `x = y = 0`). -/
def oddSkipMachine : Machine := machineWith 0x200 [0x50, 0x01]

/-- A machine holding `8128` at `0x200`, with registers and screen in use. -/
def unknownMachine : Machine :=
  { initMachine with
    memory := writeBytes initMachine.memory 0x200 [0x81, 0x28],
    VN := setAt (setAt initMachine.VN 1 3) 2 5,
    I := 0x300 }

/-- A machine holding `D011` at `0x200`, the one-row sprite `0xFF` at
`I = 0x300`, `V[0] = 60` and `V[1] = 0`: the sprite starts four columns before
the right edge. -/
def edgeSpriteMachine : Machine :=
  { initMachine with
    memory := writeBytes (writeBytes initMachine.memory 0x200 [0xD0, 0x11]) 0x300 [0xFF],
    I := 0x300,
    VN := setAt initMachine.VN 0 60 }

/-- A machine holding `F055` at `0x200`, with `I = 0xFFF`. -/
def lastCellMachine : Machine :=
  { initMachine with
    memory := writeBytes initMachine.memory 0x200 [0xF0, 0x55],
    I := 0xFFF }

/-- A machine whose timers are running: `DT = 5`, `ST = 3`. -/
def timerMachine : Machine := { initMachine with DT := 5, ST := 3 }

/-- The words that reach a `default:` branch of `run_instruction`: `0nnn`
whose low byte is neither `E0` nor `EE`, `8xy8 .. 8xyD` and `8xyF`, `Exkk`
other than `Ex9E` and `ExA1`, and `Fxkk` with `kk` outside
`07, 0A, 15, 18, 1E, 29, 33, 55, 65`. -/
def skippedWord (op : Nat) : Prop :=
  (op / 4096 % 16 = 0x0 ∧ op % 256 ≠ 0xE0 ∧ op % 256 ≠ 0xEE)
  ∨ (op / 4096 % 16 = 0x8 ∧ 8 ≤ op % 16 ∧ op % 16 ≠ 0xE)
  ∨ (op / 4096 % 16 = 0xE ∧ op % 256 ≠ 0x9E ∧ op % 256 ≠ 0xA1)
  ∨ (op / 4096 % 16 = 0xF ∧ op % 256 ≠ 0x07 ∧ op % 256 ≠ 0x0A ∧ op % 256 ≠ 0x15
      ∧ op % 256 ≠ 0x18 ∧ op % 256 ≠ 0x1E ∧ op % 256 ≠ 0x29 ∧ op % 256 ≠ 0x33
      ∧ op % 256 ≠ 0x55 ∧ op % 256 ≠ 0x65)

instance (op : Nat) : Decidable (skippedWord op) := by
  unfold skippedWord
  infer_instance

theorem shr_and (a b i : Nat) : (a &&& b) >>> i = (a >>> i) &&& (b >>> i) := by
  apply Nat.eq_of_testBit_eq
  intro j
  simp

theorem and_0FFF (op : Nat) : op &&& 0x0FFF = op % 4096 := by
  have := Nat.and_pow_two_sub_one_eq_mod op 12
  simpa using this

theorem and_00FF (op : Nat) : op &&& 0x00FF = op % 256 := by
  have := Nat.and_pow_two_sub_one_eq_mod op 8
  simpa using this

theorem and_000F (op : Nat) : op &&& 0x000F = op % 16 := by
  have := Nat.and_pow_two_sub_one_eq_mod op 4
  simpa using this

theorem field_x (op : Nat) : (op &&& 0x0F00) >>> 8 = op / 256 % 16 := by
  rw [shr_and]
  have h : (0x0F00 : Nat) >>> 8 = 0x000F := by decide
  rw [h, and_000F, Nat.shiftRight_eq_div_pow]

theorem field_y (op : Nat) : (op &&& 0x00F0) >>> 4 = op / 16 % 16 := by
  rw [shr_and]
  have h : (0x00F0 : Nat) >>> 4 = 0x000F := by decide
  rw [h, and_000F, Nat.shiftRight_eq_div_pow]

theorem and_F000 (op : Nat) : op &&& 0xF000 = (op / 4096 % 16) * 4096 := by
  have h1 : (op &&& 0xF000) >>> 12 = op / 4096 % 16 := by
    rw [shr_and]
    have h : (0xF000 : Nat) >>> 12 = 0x000F := by decide
    rw [h, and_000F, Nat.shiftRight_eq_div_pow]
  have h2 : (op &&& 0xF000) % 4096 = 0 := by
    rw [← and_0FFF, Nat.and_assoc]
    have h : (0xF000 : Nat) &&& 0x0FFF = 0 := by decide
    rw [h, Nat.and_zero]
  rw [Nat.shiftRight_eq_div_pow] at h1
  omega

/-! ## Fetch lemmas -/

theorem wordAt_bound {m : Machine} {a op : Nat} (h : wordAt m a = some op) :
    a + 1 < 0xFFF := by
  unfold wordAt at h
  split at h
  · rename_i hb
    simp only [MEMORY_SIZE, UINT_MOD] at hb
    omega
  · cases h

theorem run_of_wordAt (env : Env) {m : Machine} {op : Nat}
    (h : wordAt m m.PC = some op) : run_instruction env m = execute env op m := by
  have hb := wordAt_bound h
  unfold run_instruction
  have hle : ¬ (m.PC + 1) % UINT_MOD > GAME_END := by
    simp only [UINT_MOD, GAME_END]
    omega
  rw [if_neg hle, h]

/-- When the fetch check fails, the call returns -1 and the machine is
untouched. -/
theorem run_instruction_fault (env : Env) (m : Machine)
    (h : (m.PC + 1) % UINT_MOD > GAME_END) : run_instruction env m = Outcome.ret (-1) m := by
  unfold run_instruction
  rw [if_pos h]

theorem wordAt_congr {m1 m2 : Machine} (h : m1.memory = m2.memory) (a : Nat) :
    wordAt m1 a = wordAt m2 a := by
  unfold wordAt
  rw [h]

/-! ## Execution lemmas, one per instruction -/

theorem execute_call (env : Env) (op : Nat) (m : Machine) (hfam : op &&& 0xF000 = 0x2000) :
    execute env op m = Outcome.ret 0
      { m with SP := (m.SP + 1) % UINT_MOD,
               Stack := setAt m.Stack (((m.SP + 1) % UINT_MOD) &&& 0xF) m.PC,
               PC := op &&& 0x0FFF } := by
  unfold execute
  simp [hfam]

theorem execute_return (env : Env) (op : Nat) (m : Machine) (hfam : op &&& 0xF000 = 0x0000)
    (hlow : op &&& 0x00FF = 0x00EE) :
    execute env op m = advance
      { m with PC := m.Stack (m.SP &&& 0xF), SP := (m.SP + UINT_MOD - 1) % UINT_MOD } := by
  unfold execute
  simp [hfam, hlow]

theorem execute_add (env : Env) (op : Nat) (m : Machine) (hfam : op &&& 0xF000 = 0x8000)
    (hn : op &&& 0x000F = 0x4) :
    execute env op m = advance
      { m with VN := setAt (setFlag m (decide
                  (m.VN ((op &&& 0x0F00) >>> 8) + m.VN ((op &&& 0x00F0) >>> 4) > 255))).VN
                ((op &&& 0x0F00) >>> 8)
                ((m.VN ((op &&& 0x0F00) >>> 8) + m.VN ((op &&& 0x00F0) >>> 4)) &&& 0xFF) } := by
  unfold execute
  simp [hfam, hn, setFlag]

theorem execute_draw (env : Env) (op : Nat) (m : Machine) (hfam : op &&& 0xF000 = 0xD000) :
    execute env op m =
      match draw_instruction m ((op &&& 0x0F00) >>> 8) ((op &&& 0x00F0) >>> 4) (op &&& 0x000F) with
      | some m1 => advance { m1 with draw_screen := true }
      | none => Outcome.undefined := by
  unfold execute
  simp [hfam]

theorem execute_store (env : Env) (op : Nat) (m : Machine) (hfam : op &&& 0xF000 = 0xF000)
    (hlow : op &&& 0x00FF = 0x0055) :
    execute env op m = advanceOpt (store_regs ((op &&& 0x0F00) >>> 8 + 1) m) := by
  unfold execute
  simp [hfam, hlow]

theorem execute_load (env : Env) (op : Nat) (m : Machine) (hfam : op &&& 0xF000 = 0xF000)
    (hlow : op &&& 0x00FF = 0x0065) :
    execute env op m = advanceOpt (load_regs ((op &&& 0x0F00) >>> 8 + 1) m) := by
  unfold execute
  simp [hfam, hlow]

theorem execute_load_imm (env : Env) (op : Nat) (m : Machine)
    (hfam : op &&& 0xF000 = 0x6000) :
    execute env op m =
      advance { m with VN := setAt m.VN ((op &&& 0x0F00) >>> 8) (op &&& 0x00FF) } := by
  unfold execute
  simp [hfam]

theorem execute_add_imm (env : Env) (op : Nat) (m : Machine)
    (hfam : op &&& 0xF000 = 0x7000) :
    execute env op m =
      advance { m with VN := setAt m.VN ((op &&& 0x0F00) >>> 8)
                              ((m.VN ((op &&& 0x0F00) >>> 8) + (op &&& 0x00FF)) % 256) } := by
  unfold execute
  simp [hfam]

theorem execute_jump (env : Env) (op : Nat) (m : Machine) (hfam : op &&& 0xF000 = 0x1000) :
    execute env op m = Outcome.ret 0 { m with PC := op &&& 0x0FFF } := by
  unfold execute
  simp [hfam]

/-- The program `6005 7003 1200` at `0x200`, run for three steps from any
state whose `PC` is `0x200`. -/
theorem run_load_add_jump (env1 env2 env3 : Env) (m : Machine) (hpc : m.PC = 0x200)
    (hw1 : wordAt m 0x200 = some 0x6005) (hw2 : wordAt m 0x202 = some 0x7003)
    (hw3 : wordAt m 0x204 = some 0x1200) :
    ∃ m1 m2 m3, run_instruction env1 m = Outcome.ret 0 m1
      ∧ run_instruction env2 m1 = Outcome.ret 0 m2
      ∧ run_instruction env3 m2 = Outcome.ret 0 m3
      ∧ m2.VN 0 = 8 ∧ m2.PC = 0x204
      ∧ m3.VN 0 = 8 ∧ m3.PC = 0x200 := by
  have h1 := run_of_wordAt env1 (show wordAt m m.PC = some 0x6005 by rw [hpc]; exact hw1)
  rw [execute_load_imm env1 _ m (by decide)] at h1
  simp only [advance, hpc] at h1
  generalize hm1 : ({ m with VN := setAt m.VN ((0x6005 &&& 0x0F00) >>> 8) (0x6005 &&& 0x00FF),
                             PC := (0x200 + 2) % UINT_MOD } : Machine) = m1 at h1
  have hpc1 : m1.PC = 0x202 := by rw [← hm1]; rfl
  have hmem1 : m1.memory = m.memory := by rw [← hm1]
  have hv1 : m1.VN 0 = 5 := by rw [← hm1]; rfl
  have h2 := run_of_wordAt env2
    (show wordAt m1 m1.PC = some 0x7003 by rw [hpc1, wordAt_congr hmem1]; exact hw2)
  rw [execute_add_imm env2 _ m1 (by decide)] at h2
  simp only [advance, hpc1] at h2
  generalize hm2 : ({ m1 with VN := setAt m1.VN ((0x7003 &&& 0x0F00) >>> 8)
                                ((m1.VN ((0x7003 &&& 0x0F00) >>> 8) + (0x7003 &&& 0x00FF)) % 256),
                              PC := (0x202 + 2) % UINT_MOD } : Machine) = m2 at h2
  have hpc2 : m2.PC = 0x204 := by rw [← hm2]; rfl
  have hmem2 : m2.memory = m.memory := by rw [← hm2]; exact hmem1
  have hv2 : m2.VN 0 = 8 := by
    rw [← hm2]
    show setAt m1.VN 0 ((m1.VN 0 + 3) % 256) 0 = 8
    rw [hv1]
    rfl
  have h3 := run_of_wordAt env3
    (show wordAt m2 m2.PC = some 0x1200 by rw [hpc2, wordAt_congr hmem2]; exact hw3)
  rw [execute_jump env3 _ m2 (by decide)] at h3
  exact ⟨m1, m2, _, h1, h2, h3, hv2, hpc2, hv2, rfl⟩

/-! ## The register store and load loops -/

/-- Effect of the first `k` iterations of the loop of `Fx55` when the cells
`memory[I .. I+k-1]` lie inside the array. -/
theorem store_regs_spec : ∀ k, ∀ s : Machine, s.I + k ≤ MEMORY_SIZE → ∃ mem,
    store_regs k s = some { s with memory := mem }
    ∧ (∀ a, a < s.I ∨ s.I + k ≤ a → mem a = s.memory a)
    ∧ (∀ i, i < k → mem (s.I + i) = s.VN i) := by
  intro k
  induction k with
  | zero =>
    intro s _
    exact ⟨s.memory, rfl, fun _ _ => rfl, fun i hi => absurd hi (Nat.not_lt_zero i)⟩
  | succ k ih =>
    intro s hmem
    obtain ⟨mem, hrun, hout, hin⟩ := ih s (by omega)
    have hidx : (s.I + k) % UINT_MOD = s.I + k := by
      apply Nat.mod_eq_of_lt
      simp only [MEMORY_SIZE] at hmem
      simp only [UINT_MOD]
      omega
    have hlt : s.I + k < MEMORY_SIZE := by omega
    refine ⟨setAt mem (s.I + k) (s.VN k), ?_, ?_, ?_⟩
    · simp only [store_regs, hrun, hidx, if_pos hlt]
    · intro a ha
      have hne : ¬ (a = s.I + k) := by omega
      simp only [setAt, if_neg hne]
      exact hout a (by omega)
    · intro i hi
      by_cases hik : i = k
      · subst hik
        simp [setAt]
      · have hne : ¬ (s.I + i = s.I + k) := by omega
        simp only [setAt, if_neg hne]
        exact hin i (by omega)

/-- Effect of the first `k` iterations of the loop of `Fx65` when the cells
`memory[I .. I+k-1]` lie inside the array. -/
theorem load_regs_spec : ∀ k, ∀ s : Machine, s.I + k ≤ MEMORY_SIZE → ∃ vn,
    load_regs k s = some { s with VN := vn }
    ∧ (∀ i, i < k → vn i = s.memory (s.I + i))
    ∧ (∀ i, k ≤ i → vn i = s.VN i) := by
  intro k
  induction k with
  | zero =>
    intro s _
    exact ⟨s.VN, rfl, fun i hi => absurd hi (Nat.not_lt_zero i), fun _ _ => rfl⟩
  | succ k ih =>
    intro s hmem
    obtain ⟨vn, hrun, hin, hout⟩ := ih s (by omega)
    have hidx : (s.I + k) % UINT_MOD = s.I + k := by
      apply Nat.mod_eq_of_lt
      simp only [MEMORY_SIZE] at hmem
      simp only [UINT_MOD]
      omega
    have hlt : s.I + k < MEMORY_SIZE := by omega
    refine ⟨setAt vn k (s.memory (s.I + k)), ?_, ?_, ?_⟩
    · simp only [load_regs, hrun, hidx, if_pos hlt]
    · intro i hi
      by_cases hik : i = k
      · subst hik
        simp [setAt]
      · simp only [setAt, if_neg hik]
        exact hin i (by omega)
    · intro i hi
      have hne : ¬ (i = k) := by omega
      simp only [setAt, if_neg hne]
      exact hout i (by omega)

/-! ## The drawing loops -/

theorem setAt_same {α : Type} (a : Nat → α) (i : Nat) : setAt a i (a i) = a := by
  funext k
  unfold setAt
  split
  · rename_i h; rw [h]
  · rfl

theorem setAt_setAt {α : Type} (a : Nat → α) (i : Nat) (v w : α) :
    setAt (setAt a i v) i w = setAt a i w := by
  funext k
  unfold setAt
  split <;> rfl

/-- Effect of the first `k` iterations of the inner loop on a row that lies
inside the grid: the pixels under the set bits `0 .. k-1` are toggled, and
`VN[0xF]` becomes 1 when one of them was lit. -/
theorem draw_cols_spec (pixel xc yc i : Nat) (hc : xc + 8 ≤ 64) (hr : i + yc < 32) :
    ∀ k, k ≤ 8 → ∀ s : Machine, ∃ v scr,
      draw_cols pixel xc yc i k s = some { s with VN := setAt s.VN 0xF v, screen := scr }
      ∧ (∀ c r, scr c r =
          if r = i + yc ∧ xc ≤ c ∧ c < xc + k ∧ pixel &&& (0x80 >>> (c - xc)) ≠ 0
          then !(s.screen c r) else s.screen c r)
      ∧ (v = 1 ∨ v = s.VN 0xF)
      ∧ (v = 1 ↔ s.VN 0xF = 1 ∨
          ∃ j, j < k ∧ pixel &&& (0x80 >>> j) ≠ 0 ∧ s.screen (j + xc) (i + yc) = true) := by
  intro k
  induction k with
  | zero =>
    intro _ s
    refine ⟨s.VN 0xF, s.screen, ?_, ?_, Or.inr rfl, ?_⟩
    · simp [draw_cols, setAt_same]
    · intro c r
      have : ¬ (r = i + yc ∧ xc ≤ c ∧ c < xc + 0 ∧ pixel &&& (0x80 >>> (c - xc)) ≠ 0) := by
        intro h; omega
      rw [if_neg this]
    · constructor
      · intro h; exact Or.inl h
      · rintro (h | ⟨j, hj, _⟩)
        · exact h
        · omega
  | succ k ih =>
    intro hk s
    obtain ⟨v, scr, hrun, hscr, hv, hvi⟩ := ih (by omega) s
    have hhere : scr (k + xc) (i + yc) = s.screen (k + xc) (i + yc) := by
      rw [hscr]
      have : ¬ (i + yc = i + yc ∧ xc ≤ k + xc ∧ k + xc < xc + k
          ∧ pixel &&& (0x80 >>> (k + xc - xc)) ≠ 0) := by
        intro h; omega
      rw [if_neg this]
    by_cases hbit : pixel &&& (0x80 >>> k) ≠ 0
    · -- bit `k` is set: the pixel is toggled
      refine ⟨if s.screen (k + xc) (i + yc) = true then 1 else v,
        setAt2 scr (k + xc) (i + yc) (!(scr (k + xc) (i + yc))), ?_, ?_, ?_, ?_⟩
      · have hin : k + xc < SCREEN_COLS ∧ i + yc < SCREEN_ROWS := by
          simp only [SCREEN_COLS, SCREEN_ROWS]; omega
        simp only [draw_cols, hrun, draw_bit, if_pos hbit, if_pos hin, hhere]
        by_cases hlit : s.screen (k + xc) (i + yc) = true
        · simp [hlit, hhere, setAt_setAt]
        · simp [hlit, hhere]
      · intro c r
        by_cases hcr : c = k + xc ∧ r = i + yc
        · obtain ⟨hc1, hr1⟩ := hcr
          subst hc1; subst hr1
          have : (i + yc = i + yc ∧ xc ≤ k + xc ∧ k + xc < xc + (k + 1)
              ∧ pixel &&& (0x80 >>> (k + xc - xc)) ≠ 0) := by
            refine ⟨rfl, by omega, by omega, ?_⟩
            rw [Nat.add_sub_cancel]; exact hbit
          rw [if_pos this]
          simp [setAt2, hhere]
        · have hset : setAt2 scr (k + xc) (i + yc) (!(scr (k + xc) (i + yc))) c r = scr c r := by
            simp only [setAt2, if_neg hcr]
          rw [hset, hscr]
          by_cases hcond : r = i + yc ∧ xc ≤ c ∧ c < xc + k ∧ pixel &&& (0x80 >>> (c - xc)) ≠ 0
          · have : r = i + yc ∧ xc ≤ c ∧ c < xc + (k + 1)
                ∧ pixel &&& (0x80 >>> (c - xc)) ≠ 0 :=
              ⟨hcond.1, hcond.2.1, by omega, hcond.2.2.2⟩
            rw [if_pos hcond, if_pos this]
          · have : ¬ (r = i + yc ∧ xc ≤ c ∧ c < xc + (k + 1)
                ∧ pixel &&& (0x80 >>> (c - xc)) ≠ 0) := by
              rintro ⟨h1, h2, h3, h4⟩
              by_cases hlt : c < xc + k
              · exact hcond ⟨h1, h2, hlt, h4⟩
              · exact hcr ⟨by omega, h1⟩
            rw [if_neg hcond, if_neg this]
      · by_cases hlit : s.screen (k + xc) (i + yc) = true
        · left; rw [if_pos hlit]
        · rw [if_neg hlit]; exact hv
      · by_cases hlit : s.screen (k + xc) (i + yc) = true
        · rw [if_pos hlit]
          exact ⟨fun _ => Or.inr ⟨k, by omega, hbit, hlit⟩, fun _ => rfl⟩
        · rw [if_neg hlit, hvi]
          constructor
          · rintro (h | ⟨j, hj, hb, hs⟩)
            · exact Or.inl h
            · exact Or.inr ⟨j, by omega, hb, hs⟩
          · rintro (h | ⟨j, hj, hb, hs⟩)
            · exact Or.inl h
            · by_cases hjk : j = k
              · subst hjk; exact absurd hs hlit
              · exact Or.inr ⟨j, by omega, hb, hs⟩
    · -- bit `k` is clear: nothing happens
      refine ⟨v, scr, ?_, ?_, hv, ?_⟩
      · simp only [draw_cols, hrun, draw_bit, if_neg hbit]
      · intro c r
        rw [hscr]
        by_cases hcond : r = i + yc ∧ xc ≤ c ∧ c < xc + k ∧ pixel &&& (0x80 >>> (c - xc)) ≠ 0
        · have : r = i + yc ∧ xc ≤ c ∧ c < xc + (k + 1)
              ∧ pixel &&& (0x80 >>> (c - xc)) ≠ 0 :=
            ⟨hcond.1, hcond.2.1, by omega, hcond.2.2.2⟩
          rw [if_pos hcond, if_pos this]
        · have : ¬ (r = i + yc ∧ xc ≤ c ∧ c < xc + (k + 1)
              ∧ pixel &&& (0x80 >>> (c - xc)) ≠ 0) := by
            rintro ⟨h1, h2, h3, h4⟩
            by_cases hlt : c < xc + k
            · exact hcond ⟨h1, h2, hlt, h4⟩
            · have hck : c - xc = k := by omega
              rw [hck] at h4
              exact hbit h4
          rw [if_neg hcond, if_neg this]
      · rw [hvi]
        constructor
        · rintro (h | ⟨j, hj, hb, hs⟩)
          · exact Or.inl h
          · exact Or.inr ⟨j, by omega, hb, hs⟩
        · rintro (h | ⟨j, hj, hb, hs⟩)
          · exact Or.inl h
          · by_cases hjk : j = k
            · subst hjk; exact absurd hb hbit
            · exact Or.inr ⟨j, by omega, hb, hs⟩

/-- Effect of the first `k` iterations of the outer loop for a sprite whose
bounding box lies inside the grid and whose bytes lie inside `memory`: the
pixels under the set bits of rows `0 .. k-1` are toggled, and `VN[0xF]`
becomes 1 when one of them was lit. -/
theorem draw_rows_spec (xc yc : Nat) (hc : xc + 8 ≤ 64) :
    ∀ k, k + yc ≤ 32 → ∀ s : Machine, s.I + k ≤ MEMORY_SIZE → ∃ v scr,
      draw_rows xc yc k s = some { s with VN := setAt s.VN 0xF v, screen := scr }
      ∧ (∀ c r, scr c r =
          if yc ≤ r ∧ r < yc + k ∧ xc ≤ c ∧ c < xc + 8
              ∧ s.memory (s.I + (r - yc)) &&& (0x80 >>> (c - xc)) ≠ 0
          then !(s.screen c r) else s.screen c r)
      ∧ (v = 1 ∨ v = s.VN 0xF)
      ∧ (v = 1 ↔ s.VN 0xF = 1 ∨
          ∃ i j, i < k ∧ j < 8 ∧ s.memory (s.I + i) &&& (0x80 >>> j) ≠ 0
            ∧ s.screen (j + xc) (i + yc) = true) := by
  intro k
  induction k with
  | zero =>
    intro _ s _
    refine ⟨s.VN 0xF, s.screen, ?_, ?_, Or.inr rfl, ?_⟩
    · simp [draw_rows, setAt_same]
    · intro c r
      have : ¬ (yc ≤ r ∧ r < yc + 0 ∧ xc ≤ c ∧ c < xc + 8
          ∧ s.memory (s.I + (r - yc)) &&& (0x80 >>> (c - xc)) ≠ 0) := by
        intro h; omega
      rw [if_neg this]
    · constructor
      · intro h; exact Or.inl h
      · rintro (h | ⟨i, j, hi, _⟩)
        · exact h
        · omega
  | succ k ih =>
    intro hk s hmem
    obtain ⟨v, scr, hrun, hscr, hv, hvi⟩ := ih (by omega) s (by omega)
    have hidx : (s.I + k) % UINT_MOD = s.I + k := by
      apply Nat.mod_eq_of_lt
      simp only [MEMORY_SIZE] at hmem
      simp only [UINT_MOD]
      omega
    have hin : s.I + k < MEMORY_SIZE := by omega
    obtain ⟨v2, scr2, hrun2, hscr2, hv2, hvi2⟩ :=
      draw_cols_spec (s.memory (s.I + k)) xc yc k hc (by omega) 8 (le_refl 8)
        { s with VN := setAt s.VN 0xF v, screen := scr }
    have hvF : (setAt s.VN 0xF v) 0xF = v := by simp [setAt]
    have hrow : ∀ c, scr c (k + yc) = s.screen c (k + yc) := by
      intro c
      rw [hscr]
      have : ¬ (yc ≤ k + yc ∧ k + yc < yc + k ∧ xc ≤ c ∧ c < xc + 8
          ∧ s.memory (s.I + (k + yc - yc)) &&& (0x80 >>> (c - xc)) ≠ 0) := by
        intro h; omega
      rw [if_neg this]
    refine ⟨v2, scr2, ?_, ?_, ?_, ?_⟩
    · simp only [draw_rows, hrun, draw_row, hidx, if_pos hin, hrun2, setAt_setAt]
    · intro c r
      have h2 := hscr2 c r
      simp only at h2
      rw [h2, hscr]
      by_cases hnew : r = k + yc ∧ xc ≤ c ∧ c < xc + 8
          ∧ s.memory (s.I + k) &&& (0x80 >>> (c - xc)) ≠ 0
      · obtain ⟨hr1, hc1, hc2, hb⟩ := hnew
        have hold : ¬ (yc ≤ r ∧ r < yc + k ∧ xc ≤ c ∧ c < xc + 8
            ∧ s.memory (s.I + (r - yc)) &&& (0x80 >>> (c - xc)) ≠ 0) := by
          intro h; omega
        have hall : yc ≤ r ∧ r < yc + (k + 1) ∧ xc ≤ c ∧ c < xc + 8
            ∧ s.memory (s.I + (r - yc)) &&& (0x80 >>> (c - xc)) ≠ 0 := by
          refine ⟨by omega, by omega, hc1, hc2, ?_⟩
          have : r - yc = k := by omega
          rw [this]; exact hb
        rw [if_pos ⟨hr1, hc1, hc2, hb⟩, if_neg hold, if_pos hall]
      · rw [if_neg hnew]
        by_cases hold : yc ≤ r ∧ r < yc + k ∧ xc ≤ c ∧ c < xc + 8
            ∧ s.memory (s.I + (r - yc)) &&& (0x80 >>> (c - xc)) ≠ 0
        · have hall : yc ≤ r ∧ r < yc + (k + 1) ∧ xc ≤ c ∧ c < xc + 8
              ∧ s.memory (s.I + (r - yc)) &&& (0x80 >>> (c - xc)) ≠ 0 :=
            ⟨hold.1, by omega, hold.2.2.1, hold.2.2.2.1, hold.2.2.2.2⟩
          rw [if_pos hold, if_pos hall]
        · have hall : ¬ (yc ≤ r ∧ r < yc + (k + 1) ∧ xc ≤ c ∧ c < xc + 8
              ∧ s.memory (s.I + (r - yc)) &&& (0x80 >>> (c - xc)) ≠ 0) := by
            rintro ⟨h1, h2, h3, h4, h5⟩
            by_cases hlt : r < yc + k
            · exact hold ⟨h1, hlt, h3, h4, h5⟩
            · have hrk : r - yc = k := by omega
              rw [hrk] at h5
              exact hnew ⟨by omega, h3, h4, h5⟩
          rw [if_neg hold, if_neg hall]
    · rcases hv2 with h | h
      · exact Or.inl h
      · rw [h]
        show (setAt s.VN 0xF v) 0xF = 1 ∨ (setAt s.VN 0xF v) 0xF = s.VN 0xF
        rw [hvF]; exact hv
    · rw [hvi2]
      show ((setAt s.VN 0xF v) 0xF = 1 ∨ ∃ j, j < 8 ∧ s.memory (s.I + k) &&& (0x80 >>> j) ≠ 0
        ∧ scr (j + xc) (k + yc) = true) ↔ _
      rw [hvF, hvi]
      constructor
      · rintro ((h | ⟨i, j, hi, hj, hb, hs⟩) | ⟨j, hj, hb, hs⟩)
        · exact Or.inl h
        · exact Or.inr ⟨i, j, by omega, hj, hb, hs⟩
        · rw [hrow] at hs
          exact Or.inr ⟨k, j, by omega, hj, hb, hs⟩
      · rintro (h | ⟨i, j, hi, hj, hb, hs⟩)
        · exact Or.inl (Or.inl h)
        · by_cases hik : i = k
          · subst hik
            rw [← hrow] at hs
            exact Or.inr ⟨j, hj, hb, hs⟩
          · exact Or.inl (Or.inr ⟨i, j, by omega, hj, hb, hs⟩)

/-- One step on `Dxyn` for a sprite whose bounding box lies inside the grid
and whose bytes lie inside `memory`. -/
theorem draw_step (env : Env) (m : Machine) (x y n : Nat) (hx : x < 16) (hy : y < 16)
    (hn : n < 16)
    (hop : wordAt m m.PC = some (0xD000 + 0x100 * x + 0x10 * y + n))
    (hcols : m.VN x + 8 ≤ 64) (hrows : m.VN y + n ≤ 32) (hmem : m.I + n ≤ MEMORY_SIZE) :
    ∃ v scr, run_instruction env m = Outcome.ret 0
        { m with VN := setAt m.VN 0xF v, screen := scr, draw_screen := true, PC := m.PC + 2 }
      ∧ (∀ c r, scr c r =
          if m.VN y ≤ r ∧ r < m.VN y + n ∧ m.VN x ≤ c ∧ c < m.VN x + 8
              ∧ m.memory (m.I + (r - m.VN y)) &&& (0x80 >>> (c - m.VN x)) ≠ 0
          then !(m.screen c r) else m.screen c r)
      ∧ (v = 1 ∨ v = 0)
      ∧ (v = 1 ↔ ∃ i j, i < n ∧ j < 8 ∧ m.memory (m.I + i) &&& (0x80 >>> j) ≠ 0
            ∧ m.screen (j + m.VN x) (i + m.VN y) = true) := by
  have hb := wordAt_bound hop
  have hfam : (0xD000 + 0x100 * x + 0x10 * y + n) &&& 0xF000 = 0xD000 := by
    rw [and_F000]; omega
  have hfn : (0xD000 + 0x100 * x + 0x10 * y + n) &&& 0x000F = n := by rw [and_000F]; omega
  have hfx : ((0xD000 + 0x100 * x + 0x10 * y + n) &&& 0x0F00) >>> 8 = x := by
    rw [field_x]; omega
  have hfy : ((0xD000 + 0x100 * x + 0x10 * y + n) &&& 0x00F0) >>> 4 = y := by
    rw [field_y]; omega
  have h1 := run_of_wordAt env hop
  rw [execute_draw env _ m hfam, hfx, hfy, hfn] at h1
  obtain ⟨v, scr, hrun, hscr, hv, hvi⟩ :=
    draw_rows_spec (m.VN x) (m.VN y) hcols n (by omega) { m with VN := setAt m.VN 0xF 0 } hmem
  have hzero : (setAt m.VN 0xF 0) 0xF = 0 := by simp [setAt]
  have hpc : (m.PC + 2) % UINT_MOD = m.PC + 2 := by
    apply Nat.mod_eq_of_lt
    simp only [UINT_MOD]
    omega
  refine ⟨v, scr, ?_, hscr, ?_, ?_⟩
  · rw [h1]
    simp only [draw_instruction, hrun, advance, setAt_setAt, hpc]
  · rcases hv with h | h
    · exact Or.inl h
    · right
      rw [h]
      exact hzero
  · rw [hvi]
    constructor
    · rintro (h | h)
      · rw [show ({ m with VN := setAt m.VN 0xF 0 } : Machine).VN 0xF = 0 from hzero] at h
        omega
      · exact h
    · intro h
      exact Or.inr h

/-! ## The ROM copy loop -/

/-- Effect of the first `k` iterations of the copy loop when the cells
`memory[GAME_START .. GAME_START+k-1]` lie inside the array. -/
theorem copy_rom_spec (rom : List Nat) : ∀ k, ∀ s : Machine, GAME_START + k ≤ MEMORY_SIZE →
    ∃ mem, copy_rom rom k s = some { s with memory := mem }
    ∧ (∀ a, a < GAME_START ∨ GAME_START + k ≤ a → mem a = s.memory a)
    ∧ (∀ i, i < k → mem (GAME_START + i) = rom.getD i 0 % 256) := by
  intro k
  induction k with
  | zero =>
    intro s _
    exact ⟨s.memory, rfl, fun _ _ => rfl, fun i hi => absurd hi (Nat.not_lt_zero i)⟩
  | succ k ih =>
    intro s hmem
    obtain ⟨mem, hrun, hout, hin⟩ := ih s (by omega)
    have hlt : GAME_START + k < MEMORY_SIZE := by omega
    refine ⟨setAt mem (GAME_START + k) (rom.getD k 0 % 256), ?_, ?_, ?_⟩
    · simp only [copy_rom, hrun, if_pos hlt]
    · intro a ha
      have hne : ¬ (a = GAME_START + k) := by omega
      simp only [setAt, if_neg hne]
      exact hout a (by omega)
    · intro i hi
      by_cases hik : i = k
      · subst hik
        simp [setAt]
      · have hne : ¬ (GAME_START + i = GAME_START + k) := by omega
        simp only [setAt, if_neg hne]
        exact hin i (by omega)

/-- An image that opens is rejected exactly when it is longer than
`GAME_END - GAME_START = 3583` bytes; the machine is then untouched. -/
theorem load_rom_rejects (m : Machine) (file : HostFile) (hopen : file.fopen_ok = true)
    (hseek : file.fseek_ok = true) (hlen : 3583 < file.bytes.length) :
    load_rom m file = Outcome.ret (-1) m := by
  have hlen2 : GAME_END - GAME_START < file.bytes.length := by
    simp only [GAME_END, GAME_START]
    omega
  simp [load_rom, hopen, hseek, hlen2]

/-- An image of at most 3583 bytes that opens is accepted and copied to
`memory[0x200 ..]`; no other memory cell changes. -/
theorem load_rom_accepts (m : Machine) (file : HostFile) (hopen : file.fopen_ok = true)
    (hseek : file.fseek_ok = true) (halloc : file.malloc_ok = true)
    (hlen : file.bytes.length ≤ 3583) :
    ∃ m1, load_rom m file = Outcome.ret 0 m1
      ∧ (∀ i, i < file.bytes.length → m1.memory (0x200 + i) = file.bytes.getD i 0 % 256)
      ∧ (∀ a, a < 0x200 ∨ 0x200 + file.bytes.length ≤ a → m1.memory a = m.memory a) := by
  have hlen2 : ¬ (GAME_END - GAME_START < file.bytes.length) := by
    simp only [GAME_END, GAME_START]
    omega
  obtain ⟨mem, hrun, hout, hin⟩ := copy_rom_spec file.bytes file.bytes.length m (by
    simp only [GAME_START, MEMORY_SIZE]
    omega)
  refine ⟨{ m with memory := mem }, ?_, ?_, ?_⟩
  · simp [load_rom, hopen, hseek, halloc, hlen2, hrun]
  · intro i hi
    exact hin i hi
  · intro a ha
    exact hout a ha

theorem execute_sub (env : Env) (op : Nat) (m : Machine) (hfam : op &&& 0xF000 = 0x8000)
    (hn : op &&& 0x000F = 0x5) :
    execute env op m = advance
      { m with VN := setAt (setFlag m (decide
                  (m.VN ((op &&& 0x0F00) >>> 8) > m.VN ((op &&& 0x00F0) >>> 4)))).VN
                ((op &&& 0x0F00) >>> 8)
                (toUChar (((setFlag m (decide
                  (m.VN ((op &&& 0x0F00) >>> 8) > m.VN ((op &&& 0x00F0) >>> 4)))).VN
                    ((op &&& 0x0F00) >>> 8) : Int)
                  - ((setFlag m (decide
                  (m.VN ((op &&& 0x0F00) >>> 8) > m.VN ((op &&& 0x00F0) >>> 4)))).VN
                    ((op &&& 0x00F0) >>> 4) : Int))) } := by
  unfold execute
  simp [hfam, hn, setFlag]

theorem toUChar_cast (v : Int) : ((toUChar v : Nat) : Int) = v % 256 := by
  unfold toUChar
  exact Int.toNat_of_nonneg (Int.emod_nonneg v (by decide))

/-! ## Claims -/

/-- Call/return round trip when both instructions lie inside the array
`memory` (`PC + 1 < 0xFFF` and `nnn + 1 < 0xFFF`): when the instruction at
`PC` is `2nnn` and the instruction at address `nnn` is `00EE`, two
consecutive steps both return 0 and leave `PC` at the original `PC + 2` and
`SP` at its original value, whatever `SP` was. -/
theorem call_return_roundtrip (env1 env2 : Env) (m : Machine) (nnn : Nat)
    (hnnn : nnn < 0x1000)
    (hcall : wordAt m m.PC = some (0x2000 + nnn))
    (hret : wordAt m nnn = some 0x00EE)
    (hsp : m.SP < UINT_MOD) :
    ∃ m1 m2, run_instruction env1 m = Outcome.ret 0 m1
      ∧ run_instruction env2 m1 = Outcome.ret 0 m2
      ∧ m2.PC = m.PC + 2 ∧ m2.SP = m.SP := by
  have hb := wordAt_bound hcall
  have hfam : (0x2000 + nnn) &&& 0xF000 = 0x2000 := by rw [and_F000]; omega
  have hn : (0x2000 + nnn) &&& 0x0FFF = nnn := by rw [and_0FFF]; omega
  have h1 := run_of_wordAt env1 hcall
  rw [execute_call env1 _ m hfam, hn] at h1
  generalize hm1 : ({ m with SP := (m.SP + 1) % UINT_MOD,
                              Stack := setAt m.Stack (((m.SP + 1) % UINT_MOD) &&& 0xF) m.PC,
                              PC := nnn } : Machine) = m1 at h1
  have hpc : m1.PC = nnn := by rw [← hm1]
  have hmem : m1.memory = m.memory := by rw [← hm1]
  have hsp1 : m1.SP = (m.SP + 1) % UINT_MOD := by rw [← hm1]
  have hst : m1.Stack (m1.SP &&& 0xF) = m.PC := by
    rw [← hm1]
    simp [setAt]
  have hw : wordAt m1 m1.PC = some 0x00EE := by
    rw [hpc, wordAt_congr hmem, hret]
  have h2 := run_of_wordAt env2 hw
  rw [execute_return env2 _ _ (by decide) (by decide)] at h2
  refine ⟨m1, _, h1, h2, ?_, ?_⟩
  · show (m1.Stack (m1.SP &&& 0xF) + 2) % UINT_MOD = m.PC + 2
    rw [hst]
    simp only [UINT_MOD]
    omega
  · show (m1.SP + UINT_MOD - 1) % UINT_MOD = m.SP
    rw [hsp1]
    simp only [UINT_MOD] at hsp ⊢
    omega

/-- The call/return round trip on `callMachine` (`2300` at `0x200`, `00EE` at `0x300`). -/
theorem call_return_roundtrip_witness :
    (wordAt callMachine callMachine.PC = some (0x2000 + 0x300)
      ∧ wordAt callMachine 0x300 = some 0x00EE)
    ∧ ∃ m1 m2, run_instruction quietEnv callMachine = Outcome.ret 0 m1
      ∧ run_instruction quietEnv m1 = Outcome.ret 0 m2
      ∧ m2.PC = callMachine.PC + 2 ∧ m2.SP = callMachine.SP :=
  ⟨⟨by decide, by decide⟩,
    call_return_roundtrip quietEnv quietEnv callMachine 0x300 (by decide) (by decide)
      (by decide) (by decide)⟩

/-- C2 (as stated, refuted): with `x = 0xF` the instruction `8F14` on
`V[F] = 200`, `V[1] = 100` leaves `V[F] = 44`, the truncated sum, so `V[F]` is
not the carry `1`. -/
theorem add_carry_flag_register_counterexample :
    wordAt addFlagMachine addFlagMachine.PC = some 0x8F14
    ∧ addFlagMachine.VN 0xF + addFlagMachine.VN 1 > 255
    ∧ ∃ m1, run_instruction quietEnv addFlagMachine = Outcome.ret 0 m1
      ∧ m1.VN 0xF = 44 ∧ m1.VN 0xF ≠ 1 :=
  ⟨by decide, by decide, _, rfl, by decide, by decide⟩

/-- C2 (amended): one step on `8xy4` returns 0 and leaves
`V[x] = (old V[x] + old V[y]) mod 256` for all `x`, `y` in `0..15`; when
`x ≠ 0xF` it leaves `V[F] = 1` if the sum exceeds 255 and `0` otherwise
(`y = 0xF` included).  In particular, for `x ≠ 0xF`, `V[x] = 200`, `V[y] = 100`
give `V[F] = 1`, `V[x] = 44`, and `V[x] = 10`, `V[y] = 100` give `V[F] = 0`,
`V[x] = 110`. -/
theorem add_carry (env : Env) (m : Machine) (x y : Nat) (hx : x < 16) (hy : y < 16)
    (hop : wordAt m m.PC = some (0x8004 + 0x100 * x + 0x10 * y)) :
    ∃ m1, run_instruction env m = Outcome.ret 0 m1
      ∧ m1.VN x = (m.VN x + m.VN y) % 256
      ∧ (x ≠ 0xF → m1.VN 0xF = if m.VN x + m.VN y > 255 then 1 else 0)
      ∧ (x ≠ 0xF → m.VN x = 200 → m.VN y = 100 → m1.VN 0xF = 1 ∧ m1.VN x = 44)
      ∧ (x ≠ 0xF → m.VN x = 10 → m.VN y = 100 → m1.VN 0xF = 0 ∧ m1.VN x = 110) := by
  have hfam : (0x8004 + 0x100 * x + 0x10 * y) &&& 0xF000 = 0x8000 := by rw [and_F000]; omega
  have hn : (0x8004 + 0x100 * x + 0x10 * y) &&& 0x000F = 0x4 := by rw [and_000F]; omega
  have hfx : ((0x8004 + 0x100 * x + 0x10 * y) &&& 0x0F00) >>> 8 = x := by rw [field_x]; omega
  have hfy : ((0x8004 + 0x100 * x + 0x10 * y) &&& 0x00F0) >>> 4 = y := by rw [field_y]; omega
  have h1 := run_of_wordAt env hop
  rw [execute_add env _ m hfam hn, hfx, hfy] at h1
  have hvx : (setAt (setFlag m (decide (m.VN x + m.VN y > 255))).VN x
      ((m.VN x + m.VN y) &&& 0xFF)) x = (m.VN x + m.VN y) % 256 := by
    simp only [setAt, if_true]
    exact and_00FF _
  have hvf : x ≠ 0xF → (setAt (setFlag m (decide (m.VN x + m.VN y > 255))).VN x
      ((m.VN x + m.VN y) &&& 0xFF)) 0xF = if m.VN x + m.VN y > 255 then 1 else 0 := by
    intro hne
    have hne2 : ¬ (0xF = x) := fun h => hne h.symm
    simp only [setAt, setFlag, if_neg hne2, if_true]
    by_cases hc : m.VN x + m.VN y > 255 <;> simp [hc]
  refine ⟨_, h1, hvx, hvf, ?_, ?_⟩
  · intro hne h200 h100
    refine ⟨?_, ?_⟩
    · show (setAt _ x _) 0xF = 1
      rw [hvf hne, h200, h100]; rfl
    · show (setAt _ x _) x = 44
      rw [hvx, h200, h100]
  · intro hne h10 h100
    refine ⟨?_, ?_⟩
    · show (setAt _ x _) 0xF = 0
      rw [hvf hne, h10, h100]; rfl
    · show (setAt _ x _) x = 110
      rw [hvx, h10, h100]

/-- The add-with-carry step on `addMachine` (`8124`, `V[1] = 200`, `V[2] = 100`). -/
theorem add_carry_witness :
    wordAt addMachine addMachine.PC = some (0x8004 + 0x100 * 1 + 0x10 * 2)
    ∧ ∃ m1, run_instruction quietEnv addMachine = Outcome.ret 0 m1
      ∧ m1.VN 1 = (addMachine.VN 1 + addMachine.VN 2) % 256
      ∧ ((1 : Nat) ≠ 0xF → m1.VN 0xF = if addMachine.VN 1 + addMachine.VN 2 > 255 then 1 else 0)
      ∧ ((1 : Nat) ≠ 0xF → addMachine.VN 1 = 200 → addMachine.VN 2 = 100
          → m1.VN 0xF = 1 ∧ m1.VN 1 = 44)
      ∧ ((1 : Nat) ≠ 0xF → addMachine.VN 1 = 10 → addMachine.VN 2 = 100
          → m1.VN 0xF = 0 ∧ m1.VN 1 = 110) :=
  ⟨by decide, add_carry quietEnv addMachine 1 2 (by decide) (by decide) (by decide)⟩

/-- C3 (as stated, refuted): `D011` twice with the one-pixel sprite `0x80`
drawn over a pixel that is already lit; both steps return 0, the sprite lies
inside the grid, and after the second draw `V[F]` is 0, not 1. -/
theorem draw_twice_flag_counterexample :
    wordAt litMachine litMachine.PC = some 0xD011
    ∧ wordAt litMachine (litMachine.PC + 2) = some 0xD011
    ∧ litMachine.VN 0 + 8 ≤ 64 ∧ litMachine.VN 1 + 1 ≤ 32
    ∧ ∃ m1 m2, run_instruction quietEnv litMachine = Outcome.ret 0 m1
      ∧ run_instruction quietEnv m1 = Outcome.ret 0 m2
      ∧ m2.VN 0xF = 0 ∧ m2.VN 0xF ≠ 1 :=
  ⟨by decide, by decide, by decide, by decide, _, _, rfl, rfl, by decide, by decide⟩

/-- C3 (amended): when the instructions at `PC` and `PC + 2` are the same
`Dxyn` with `x ≠ 0xF` and `y ≠ 0xF`, the sprite's bounding box lies inside the
64x32 grid and its bytes inside `memory`, two steps both return 0, every pixel
of the screen has the value it had before the first draw, and after the second
draw `V[F]` is 1 exactly when some set sprite bit covers a pixel that was
unlit before the first draw (and is 0 otherwise). -/
theorem draw_twice (env1 env2 : Env) (m : Machine) (x y n : Nat) (hx : x < 16) (hy : y < 16)
    (hn : n < 16) (hxF : x ≠ 0xF) (hyF : y ≠ 0xF)
    (hop1 : wordAt m m.PC = some (0xD000 + 0x100 * x + 0x10 * y + n))
    (hop2 : wordAt m (m.PC + 2) = some (0xD000 + 0x100 * x + 0x10 * y + n))
    (hcols : m.VN x + 8 ≤ 64) (hrows : m.VN y + n ≤ 32) (hmem : m.I + n ≤ MEMORY_SIZE) :
    ∃ m1 m2, run_instruction env1 m = Outcome.ret 0 m1
      ∧ run_instruction env2 m1 = Outcome.ret 0 m2
      ∧ (∀ c r, m2.screen c r = m.screen c r)
      ∧ (m2.VN 0xF = 1 ∨ m2.VN 0xF = 0)
      ∧ (m2.VN 0xF = 1 ↔ ∃ i j, i < n ∧ j < 8 ∧ m.memory (m.I + i) &&& (0x80 >>> j) ≠ 0
            ∧ m.screen (j + m.VN x) (i + m.VN y) = false) := by
  obtain ⟨v, scr, hrun, hscr, _, _⟩ := draw_step env1 m x y n hx hy hn hop1 hcols hrows hmem
  generalize hm1 : ({ m with VN := setAt m.VN 0xF v, screen := scr, draw_screen := true,
                             PC := m.PC + 2 } : Machine) = m1 at hrun
  have hpc : m1.PC = m.PC + 2 := by rw [← hm1]
  have hI : m1.I = m.I := by rw [← hm1]
  have hmemEq : m1.memory = m.memory := by rw [← hm1]
  have hsc : m1.screen = scr := by rw [← hm1]
  have hvx : m1.VN x = m.VN x := by
    rw [← hm1]
    simp [setAt, hxF]
  have hvy : m1.VN y = m.VN y := by
    rw [← hm1]
    simp [setAt, hyF]
  have hw : wordAt m1 m1.PC = some (0xD000 + 0x100 * x + 0x10 * y + n) := by
    rw [hpc, wordAt_congr hmemEq, hop2]
  obtain ⟨v2, scr2, hrun2, hscr2, hv2, hvi2⟩ :=
    draw_step env2 m1 x y n hx hy hn hw (by rw [hvx]; exact hcols) (by rw [hvy]; exact hrows)
      (by rw [hI]; exact hmem)
  rw [hvx, hvy, hI, hmemEq, hsc] at hscr2 hvi2
  have hvF : (setAt m1.VN 0xF v2) 0xF = v2 := by simp [setAt]
  refine ⟨m1, _, hrun, hrun2, ?_, ?_, ?_⟩
  · intro c r
    show scr2 c r = m.screen c r
    rw [hscr2, hscr]
    by_cases hcov : m.VN y ≤ r ∧ r < m.VN y + n ∧ m.VN x ≤ c ∧ c < m.VN x + 8
        ∧ m.memory (m.I + (r - m.VN y)) &&& (0x80 >>> (c - m.VN x)) ≠ 0
    · rw [if_pos hcov, if_pos hcov, Bool.not_not]
    · rw [if_neg hcov, if_neg hcov]
  · show (setAt m1.VN 0xF v2) 0xF = 1 ∨ (setAt m1.VN 0xF v2) 0xF = 0
    rw [hvF]; exact hv2
  · show (setAt m1.VN 0xF v2) 0xF = 1 ↔ _
    rw [hvF, hvi2]
    have hflip : ∀ i j, i < n → j < 8 → m.memory (m.I + i) &&& (0x80 >>> j) ≠ 0 →
        scr (j + m.VN x) (i + m.VN y) = !(m.screen (j + m.VN x) (i + m.VN y)) := by
      intro i j hi hj hbit
      rw [hscr]
      have hcov : m.VN y ≤ i + m.VN y ∧ i + m.VN y < m.VN y + n ∧ m.VN x ≤ j + m.VN x
          ∧ j + m.VN x < m.VN x + 8
          ∧ m.memory (m.I + (i + m.VN y - m.VN y)) &&& (0x80 >>> (j + m.VN x - m.VN x)) ≠ 0 := by
        refine ⟨by omega, by omega, by omega, by omega, ?_⟩
        rw [Nat.add_sub_cancel, Nat.add_sub_cancel]
        exact hbit
      rw [if_pos hcov]
    constructor
    · rintro ⟨i, j, hi, hj, hbit, hs⟩
      rw [hflip i j hi hj hbit] at hs
      refine ⟨i, j, hi, hj, hbit, ?_⟩
      simpa using hs
    · rintro ⟨i, j, hi, hj, hbit, hs⟩
      refine ⟨i, j, hi, hj, hbit, ?_⟩
      rw [hflip i j hi hj hbit, hs]
      rfl

/-- The double draw on `blankMachine` (`D011` twice, sprite `0x80`, blank screen). -/
theorem draw_twice_witness :
    (wordAt blankMachine blankMachine.PC = some (0xD000 + 0x100 * 0 + 0x10 * 1 + 1)
      ∧ wordAt blankMachine (blankMachine.PC + 2) = some (0xD000 + 0x100 * 0 + 0x10 * 1 + 1)
      ∧ blankMachine.VN 0 + 8 ≤ 64 ∧ blankMachine.VN 1 + 1 ≤ 32
      ∧ blankMachine.I + 1 ≤ MEMORY_SIZE)
    ∧ ∃ m1 m2, run_instruction quietEnv blankMachine = Outcome.ret 0 m1
      ∧ run_instruction quietEnv m1 = Outcome.ret 0 m2
      ∧ (∀ c r, m2.screen c r = blankMachine.screen c r)
      ∧ (m2.VN 0xF = 1 ∨ m2.VN 0xF = 0)
      ∧ (m2.VN 0xF = 1 ↔ ∃ i j, i < 1 ∧ j < 8
            ∧ blankMachine.memory (blankMachine.I + i) &&& (0x80 >>> j) ≠ 0
            ∧ blankMachine.screen (j + blankMachine.VN 0) (i + blankMachine.VN 1) = false) :=
  ⟨⟨by decide, by decide, by decide, by decide, by decide⟩,
    draw_twice quietEnv quietEnv blankMachine 0 1 1 (by decide) (by decide) (by decide)
      (by decide) (by decide) (by decide) (by decide) (by decide) (by decide) (by decide)⟩

/-- C4: when the instruction at `PC` is `Fx55` and the cells
`memory[I .. I+x]` lie inside the array, the step returns 0, changes no
register, leaves `I` alone, changes no memory cell outside `memory[I .. I+x]`
and stores `V[i]` in `memory[I+i]`; when the instruction executed next is
`Fx65` with the same `x`, that step returns 0 as well and leaves every
register `V[0..=x]` equal to its value before the `Fx55`. -/
theorem store_load_roundtrip (env1 env2 : Env) (m : Machine) (x : Nat) (hx : x < 16)
    (hop1 : wordAt m m.PC = some (0xF055 + 0x100 * x))
    (hop2 : ∀ m1, run_instruction env1 m = Outcome.ret 0 m1 →
      wordAt m1 m1.PC = some (0xF065 + 0x100 * x))
    (hmem : m.I + x < MEMORY_SIZE) :
    ∃ m1 m2, run_instruction env1 m = Outcome.ret 0 m1
      ∧ m1.VN = m.VN ∧ m1.I = m.I
      ∧ (∀ a, a < m.I ∨ m.I + x < a → m1.memory a = m.memory a)
      ∧ (∀ i, i ≤ x → m1.memory (m.I + i) = m.VN i)
      ∧ run_instruction env2 m1 = Outcome.ret 0 m2
      ∧ (∀ i, i ≤ x → m2.VN i = m.VN i) := by
  have hfam1 : (0xF055 + 0x100 * x) &&& 0xF000 = 0xF000 := by rw [and_F000]; omega
  have hlow1 : (0xF055 + 0x100 * x) &&& 0x00FF = 0x0055 := by rw [and_00FF]; omega
  have hfx1 : ((0xF055 + 0x100 * x) &&& 0x0F00) >>> 8 = x := by rw [field_x]; omega
  have hfam2 : (0xF065 + 0x100 * x) &&& 0xF000 = 0xF000 := by rw [and_F000]; omega
  have hlow2 : (0xF065 + 0x100 * x) &&& 0x00FF = 0x0065 := by rw [and_00FF]; omega
  have hfx2 : ((0xF065 + 0x100 * x) &&& 0x0F00) >>> 8 = x := by rw [field_x]; omega
  obtain ⟨mem, hst, hout, hin⟩ := store_regs_spec (x + 1) m (by omega)
  have h1 := run_of_wordAt env1 hop1
  rw [execute_store env1 _ m hfam1 hlow1, hfx1, hst] at h1
  simp only [advanceOpt, advance] at h1
  generalize hm1 : ({ m with memory := mem, PC := (m.PC + 2) % UINT_MOD } : Machine) = m1 at h1
  have hI : m1.I = m.I := by rw [← hm1]
  have hVN : m1.VN = m.VN := by rw [← hm1]
  have hmemEq : m1.memory = mem := by rw [← hm1]
  obtain ⟨vn, hld, hvn, _⟩ := load_regs_spec (x + 1) m1 (by rw [hI]; omega)
  have h2 := run_of_wordAt env2 (hop2 m1 h1)
  rw [execute_load env2 _ m1 hfam2 hlow2, hfx2, hld] at h2
  simp only [advanceOpt, advance] at h2
  refine ⟨m1, _, h1, hVN, hI, ?_, ?_, h2, ?_⟩
  · intro a ha
    rw [hmemEq]
    exact hout a (by omega)
  · intro i hi
    rw [hmemEq]
    exact hin i (by omega)
  · intro i hi
    show vn i = m.VN i
    rw [hvn i (by omega), hI, hmemEq]
    exact hin i (by omega)

/-- The store/load round trip on `storeMachine` (`F255` then `F265`). -/
theorem store_load_roundtrip_witness :
    (wordAt storeMachine storeMachine.PC = some (0xF055 + 0x100 * 2)
      ∧ nextWord (run_instruction quietEnv storeMachine) = some (0xF065 + 0x100 * 2)
      ∧ storeMachine.I + 2 < MEMORY_SIZE)
    ∧ ∃ m1 m2, run_instruction quietEnv storeMachine = Outcome.ret 0 m1
      ∧ m1.VN = storeMachine.VN ∧ m1.I = storeMachine.I
      ∧ (∀ a, a < storeMachine.I ∨ storeMachine.I + 2 < a → m1.memory a = storeMachine.memory a)
      ∧ (∀ i, i ≤ 2 → m1.memory (storeMachine.I + i) = storeMachine.VN i)
      ∧ run_instruction quietEnv m1 = Outcome.ret 0 m2
      ∧ (∀ i, i ≤ 2 → m2.VN i = storeMachine.VN i) :=
  ⟨⟨by decide, by decide, by decide⟩,
    store_load_roundtrip quietEnv quietEnv storeMachine 2 (by decide) (by decide)
      (fun _ h => (congrArg nextWord h).symm.trans (by decide)) (by decide)⟩

/-- C5 (defect): `F033` with `V[0] = 234` and `I = 0x300` returns 0 and
writes `memory[I] = 2`, `memory[I+1] = 4`, `memory[I+2] = 4`: the tens cell
receives `V[x] mod 10` instead of `(V[x] / 10) mod 10`. -/
theorem bcd_tens_digit_defect :
    wordAt bcdMachine bcdMachine.PC = some 0xF033
    ∧ ∃ m1, run_instruction quietEnv bcdMachine = Outcome.ret 0 m1
      ∧ m1.memory 0x300 = 2 ∧ m1.memory 0x301 = 4 ∧ m1.memory 0x302 = 4
      ∧ m1.memory 0x301 ≠ (bcdMachine.VN 0 / 10) % 10 :=
  ⟨by decide, _, rfl, by decide, by decide, by decide, by decide⟩

/-- C6 (as stated, refuted): after three steps on `6005 7003 1200` the `PC`
is `0x200`, hence not `0x204`. -/
theorem end_to_end_pc_counterexample :
    wordAt progMachine 0x200 = some 0x6005 ∧ wordAt progMachine 0x202 = some 0x7003
    ∧ wordAt progMachine 0x204 = some 0x1200
    ∧ ∃ m1 m2 m3, run_instruction quietEnv progMachine = Outcome.ret 0 m1
      ∧ run_instruction quietEnv m1 = Outcome.ret 0 m2
      ∧ run_instruction quietEnv m2 = Outcome.ret 0 m3
      ∧ m3.PC ≠ 0x204 := by
  refine ⟨by decide, by decide, by decide, ?_⟩
  obtain ⟨m1, m2, m3, h1, h2, h3, _, _, _, hpc3⟩ :=
    run_load_add_jump quietEnv quietEnv quietEnv progMachine (by decide) (by decide)
      (by decide) (by decide)
  exact ⟨m1, m2, m3, h1, h2, h3, by rw [hpc3]; decide⟩

/-- C6 (amended): from the initial machine state with
`memory[0x200..0x205] = 60 05 70 03 12 00`, three steps all return 0 and leave
`V[0] = 8` and `PC = 0x200` (the `1200` at `0x204` jumps back to `0x200`);
`PC` is `0x204` after the second step. -/
theorem end_to_end_program :
    progMachine.PC = 0x200 ∧ progMachine.SP = 0 ∧ progMachine.DT = 0 ∧ progMachine.ST = 0
    ∧ (∀ r, progMachine.VN r = 0) ∧ (∀ i, progMachine.Stack i = 0)
    ∧ wordAt progMachine 0x200 = some 0x6005 ∧ wordAt progMachine 0x202 = some 0x7003
    ∧ wordAt progMachine 0x204 = some 0x1200
    ∧ ∃ m1 m2 m3, run_instruction quietEnv progMachine = Outcome.ret 0 m1
      ∧ run_instruction quietEnv m1 = Outcome.ret 0 m2
      ∧ run_instruction quietEnv m2 = Outcome.ret 0 m3
      ∧ m2.VN 0 = 8 ∧ m2.PC = 0x204
      ∧ m3.VN 0 = 8 ∧ m3.PC = 0x200 :=
  ⟨by decide, by decide, by decide, by decide, fun _ => rfl, fun _ => rfl,
    by decide, by decide, by decide,
    run_load_add_jump quietEnv quietEnv quietEnv progMachine (by decide) (by decide)
      (by decide) (by decide)⟩

/-- C7: when the instructions at `PC` and `PC + 2` are `6xkk` and `7xkk` with
the same `x` and `kk`, two steps both return 0 and leave
`V[x] = (kk + kk) mod 256`, `PC` advanced by 4 and every other register
unchanged. -/
theorem load_add_wraps (env1 env2 : Env) (m : Machine) (x kk : Nat) (hx : x < 16)
    (hkk : kk < 256)
    (hop1 : wordAt m m.PC = some (0x6000 + 0x100 * x + kk))
    (hop2 : wordAt m (m.PC + 2) = some (0x7000 + 0x100 * x + kk)) :
    ∃ m1 m2, run_instruction env1 m = Outcome.ret 0 m1
      ∧ run_instruction env2 m1 = Outcome.ret 0 m2
      ∧ m2.VN x = (kk + kk) % 256
      ∧ m2.PC = m.PC + 4
      ∧ (∀ r, r ≠ x → m2.VN r = m.VN r) := by
  have hb1 := wordAt_bound hop1
  have hb2 := wordAt_bound hop2
  have hfam1 : (0x6000 + 0x100 * x + kk) &&& 0xF000 = 0x6000 := by rw [and_F000]; omega
  have hfx1 : ((0x6000 + 0x100 * x + kk) &&& 0x0F00) >>> 8 = x := by rw [field_x]; omega
  have hkk1 : (0x6000 + 0x100 * x + kk) &&& 0x00FF = kk := by rw [and_00FF]; omega
  have hfam2 : (0x7000 + 0x100 * x + kk) &&& 0xF000 = 0x7000 := by rw [and_F000]; omega
  have hfx2 : ((0x7000 + 0x100 * x + kk) &&& 0x0F00) >>> 8 = x := by rw [field_x]; omega
  have hkk2 : (0x7000 + 0x100 * x + kk) &&& 0x00FF = kk := by rw [and_00FF]; omega
  have hpc : (m.PC + 2) % UINT_MOD = m.PC + 2 := by
    apply Nat.mod_eq_of_lt
    simp only [UINT_MOD]
    omega
  have h1 := run_of_wordAt env1 hop1
  rw [execute_load_imm env1 _ m hfam1, hfx1, hkk1] at h1
  simp only [advance, hpc] at h1
  generalize hm1 : ({ m with VN := setAt m.VN x kk, PC := m.PC + 2 } : Machine) = m1 at h1
  have hpc1 : m1.PC = m.PC + 2 := by rw [← hm1]
  have hmemEq : m1.memory = m.memory := by rw [← hm1]
  have hVN : m1.VN = setAt m.VN x kk := by rw [← hm1]
  have hw : wordAt m1 m1.PC = some (0x7000 + 0x100 * x + kk) := by
    rw [hpc1, wordAt_congr hmemEq, hop2]
  have h2 := run_of_wordAt env2 hw
  rw [execute_add_imm env2 _ m1 hfam2, hfx2, hkk2] at h2
  refine ⟨m1, _, h1, h2, ?_, ?_, ?_⟩
  · show setAt m1.VN x ((m1.VN x + kk) % 256) x = (kk + kk) % 256
    rw [hVN]
    simp [setAt]
  · show (m1.PC + 2) % UINT_MOD = m.PC + 4
    rw [hpc1]
    simp only [UINT_MOD]
    omega
  · intro r hr
    show setAt m1.VN x ((m1.VN x + kk) % 256) r = m.VN r
    rw [hVN]
    simp [setAt, hr]

/-- The load-then-add steps on `loadAddMachine` (`6A90` then `7A90`). -/
theorem load_add_wraps_witness :
    (wordAt loadAddMachine loadAddMachine.PC = some (0x6000 + 0x100 * 0xA + 0x90)
      ∧ wordAt loadAddMachine (loadAddMachine.PC + 2) = some (0x7000 + 0x100 * 0xA + 0x90))
    ∧ ∃ m1 m2, run_instruction quietEnv loadAddMachine = Outcome.ret 0 m1
      ∧ run_instruction quietEnv m1 = Outcome.ret 0 m2
      ∧ m2.VN 0xA = (0x90 + 0x90) % 256
      ∧ m2.PC = loadAddMachine.PC + 4
      ∧ (∀ r, r ≠ 0xA → m2.VN r = loadAddMachine.VN r) :=
  ⟨⟨by decide, by decide⟩,
    load_add_wraps quietEnv quietEnv loadAddMachine 0xA 0x90 (by decide) (by decide)
      (by decide) (by decide)⟩

/-- C8 (defect): `3xkk` returns without the final `PC += 2`.  With
`V[0] = 0`, the step on `3001` (`V[x] ≠ kk`) returns 0 and leaves `PC` at
`0x200` instead of `0x202`, and the step on `3000` (`V[x] = kk`) returns 0
and leaves `PC` at `0x202` instead of `0x204`. -/
theorem skip_if_equal_defect :
    (wordAt skipNeMachine skipNeMachine.PC = some 0x3001 ∧ skipNeMachine.VN 0 ≠ 0x01
      ∧ ∃ m1, run_instruction quietEnv skipNeMachine = Outcome.ret 0 m1
        ∧ skipNeMachine.PC = 0x200 ∧ m1.PC = 0x200)
    ∧ (wordAt skipEqMachine skipEqMachine.PC = some 0x3000 ∧ skipEqMachine.VN 0 = 0x00
      ∧ ∃ m1, run_instruction quietEnv skipEqMachine = Outcome.ret 0 m1
        ∧ skipEqMachine.PC = 0x200 ∧ m1.PC = 0x202) :=
  ⟨⟨by decide, by decide, _, rfl, by decide, by decide⟩,
    ⟨by decide, by decide, _, rfl, by decide, by decide⟩⟩

/-- C9 (defect): the step on `00E0` returns 0 and leaves every pixel false,
but it does not set `draw_screen`: from a state whose `draw_screen` is false
the flag is still false afterwards. -/
theorem clear_screen_not_marked_dirty :
    wordAt clearMachine clearMachine.PC = some 0x00E0
    ∧ clearMachine.screen 3 4 = true ∧ clearMachine.draw_screen = false
    ∧ ∃ m1, run_instruction quietEnv clearMachine = Outcome.ret 0 m1
      ∧ (∀ c r, m1.screen c r = false)
      ∧ m1.draw_screen = false :=
  ⟨by decide, by decide, by decide, _, rfl, fun _ _ => rfl, by decide⟩

/-- C10 (defect): with `PC = 0xFFE` the test `PC + 1 > GAME_END` lets the
fetch through, and the low byte is read from `memory[0xFFF]`, one cell past
the end of the array `memory[0xFFF]` (whose last cell is `memory[0xFFE]`). -/
theorem fetch_reads_past_memory :
    edgeMachine.PC + 1 ≤ 0xFFF
    ∧ edgeMachine.PC < MEMORY_SIZE
    ∧ ¬ (edgeMachine.PC + 1 < MEMORY_SIZE)
    ∧ wordAt edgeMachine edgeMachine.PC = none
    ∧ run_instruction quietEnv edgeMachine = Outcome.undefined :=
  ⟨by decide, by decide, by decide, by decide, rfl⟩

/-- C11 (as stated, refuted): with `SP = 15` the step on `2300` does not
fail; it returns 0 and leaves `SP = 16`, so a successful step from a state
with `SP ≤ 15` yields a state with `SP > 15`.  With `SP = 0` the step on
`00EE` does not fail either; it returns 0 and leaves `SP = 2 ^ 32 - 1`. -/
theorem stack_fault_counterexample :
    (wordAt callFullMachine callFullMachine.PC = some 0x2300 ∧ callFullMachine.SP = 15
      ∧ ∃ m1, run_instruction quietEnv callFullMachine = Outcome.ret 0 m1
        ∧ m1.SP = 16 ∧ ¬ (m1.SP ≤ 15))
    ∧ (wordAt returnEmptyMachine returnEmptyMachine.PC = some 0x00EE
      ∧ returnEmptyMachine.SP = 0
      ∧ ∃ m1, run_instruction quietEnv returnEmptyMachine = Outcome.ret 0 m1
        ∧ m1.SP = 4294967295 ∧ ¬ (m1.SP ≤ 15)) :=
  ⟨⟨by decide, by decide, _, rfl, by decide, by decide⟩,
    ⟨by decide, by decide, _, rfl, by decide, by decide⟩⟩

/-- C11 (amended): there are no stack faults, the stack pointer wraps.  A
step on `00EE` always returns 0, takes the return address from
`Stack[SP & 0xF]` and decrements `SP` modulo `2 ^ 32` (from `SP = 0` it reads
`Stack[0]` and leaves `SP = 2 ^ 32 - 1`); a step on `2nnn` always returns 0,
increments `SP` modulo `2 ^ 32`, stores the return address in `Stack[SP & 0xF]`
and sets `PC = nnn` (from `SP = 15` it leaves `SP = 16` and writes `Stack[0]`).
Every stack index `SP & 0xF` is below 16. -/
theorem stack_wraps (env : Env) (ma mb : Machine) (nnn : Nat) (hnnn : nnn < 0x1000)
    (ha : wordAt ma ma.PC = some 0x00EE)
    (hb : wordAt mb mb.PC = some (0x2000 + nnn)) :
    (∃ m1, run_instruction env ma = Outcome.ret 0 m1
      ∧ m1.PC = (ma.Stack (ma.SP &&& 0xF) + 2) % UINT_MOD
      ∧ m1.SP = (ma.SP + UINT_MOD - 1) % UINT_MOD
      ∧ ma.SP &&& 0xF < 16
      ∧ (ma.SP = 0 → m1.SP = 4294967295 ∧ m1.PC = (ma.Stack 0 + 2) % UINT_MOD))
    ∧ (∃ m2, run_instruction env mb = Outcome.ret 0 m2
      ∧ m2.SP = (mb.SP + 1) % UINT_MOD
      ∧ m2.PC = nnn
      ∧ m2.SP &&& 0xF < 16
      ∧ m2.Stack (m2.SP &&& 0xF) = mb.PC
      ∧ (mb.SP = 15 → m2.SP = 16 ∧ m2.Stack 0 = mb.PC)) := by
  have hidx : ∀ s : Nat, s &&& 0xF < 16 := by
    intro s
    rw [and_000F]
    omega
  refine ⟨?_, ?_⟩
  · have h1 := run_of_wordAt env ha
    rw [execute_return env _ ma (by decide) (by decide)] at h1
    refine ⟨_, h1, rfl, rfl, hidx _, ?_⟩
    intro h0
    refine ⟨?_, ?_⟩
    · show (ma.SP + UINT_MOD - 1) % UINT_MOD = 4294967295
      rw [h0]
      rfl
    · show (ma.Stack (ma.SP &&& 0xF) + 2) % UINT_MOD = (ma.Stack 0 + 2) % UINT_MOD
      rw [h0]
      rfl
  · have hfam : (0x2000 + nnn) &&& 0xF000 = 0x2000 := by rw [and_F000]; omega
    have hn : (0x2000 + nnn) &&& 0x0FFF = nnn := by rw [and_0FFF]; omega
    have h2 := run_of_wordAt env hb
    rw [execute_call env _ mb hfam, hn] at h2
    refine ⟨_, h2, rfl, rfl, hidx _, ?_, ?_⟩
    · show setAt mb.Stack (((mb.SP + 1) % UINT_MOD) &&& 0xF) mb.PC
          (((mb.SP + 1) % UINT_MOD) &&& 0xF) = mb.PC
      simp [setAt]
    · intro h15
      refine ⟨?_, ?_⟩
      · show (mb.SP + 1) % UINT_MOD = 16
        rw [h15]
        rfl
      · show setAt mb.Stack (((mb.SP + 1) % UINT_MOD) &&& 0xF) mb.PC 0 = mb.PC
        rw [h15]
        rfl

/-- The wrapping stack steps on `returnEmptyMachine` (`00EE`, `SP = 0`) and
`callFullMachine` (`2300`, `SP = 15`). -/
theorem stack_wraps_witness :
    (wordAt returnEmptyMachine returnEmptyMachine.PC = some 0x00EE
      ∧ wordAt callFullMachine callFullMachine.PC = some (0x2000 + 0x300))
    ∧ (∃ m1, run_instruction quietEnv returnEmptyMachine = Outcome.ret 0 m1
      ∧ m1.PC = (returnEmptyMachine.Stack (returnEmptyMachine.SP &&& 0xF) + 2) % UINT_MOD
      ∧ m1.SP = (returnEmptyMachine.SP + UINT_MOD - 1) % UINT_MOD
      ∧ returnEmptyMachine.SP &&& 0xF < 16
      ∧ (returnEmptyMachine.SP = 0 →
          m1.SP = 4294967295 ∧ m1.PC = (returnEmptyMachine.Stack 0 + 2) % UINT_MOD))
    ∧ (∃ m2, run_instruction quietEnv callFullMachine = Outcome.ret 0 m2
      ∧ m2.SP = (callFullMachine.SP + 1) % UINT_MOD
      ∧ m2.PC = 0x300
      ∧ m2.SP &&& 0xF < 16
      ∧ m2.Stack (m2.SP &&& 0xF) = callFullMachine.PC
      ∧ (callFullMachine.SP = 15 → m2.SP = 16 ∧ m2.Stack 0 = callFullMachine.PC)) :=
  ⟨⟨by decide, by decide⟩,
    stack_wraps quietEnv returnEmptyMachine callFullMachine 0x300 (by decide) (by decide)
      (by decide)⟩

/-- C12 (defect): an image of 3584 bytes, exactly `0xFFF - 0x200 + 1`, that
opens without error is rejected: `load_rom` returns -1 and leaves the machine
untouched, because the test is `GAME_END - GAME_START < rom_length` with
`GAME_END - GAME_START = 3583`. -/
theorem load_rom_rejects_full_region :
    fullRegionFile.bytes.length = 3584
    ∧ fullRegionFile.bytes.length ≤ 0xFFF - 0x200 + 1
    ∧ GAME_END - GAME_START = 3583
    ∧ load_rom initMachine fullRegionFile = Outcome.ret (-1) initMachine := by
  have hlen : fullRegionFile.bytes.length = 3584 := by
    show (List.replicate 3584 0xAB).length = 3584
    exact List.length_replicate 3584 0xAB
  refine ⟨hlen, by rw [hlen], by decide, ?_⟩
  exact load_rom_rejects initMachine fullRegionFile rfl rfl (by rw [hlen]; decide)

/-- C13 (as stated, refuted): `8125` with `V[1] = V[2] = 5` returns 0 and
leaves `V[F] = 0`, although `V[x] ≥ V[y]`. -/
theorem sub_flag_equal_counterexample :
    wordAt subEqualMachine subEqualMachine.PC = some 0x8125
    ∧ subEqualMachine.VN 1 ≥ subEqualMachine.VN 2
    ∧ ∃ m1, run_instruction quietEnv subEqualMachine = Outcome.ret 0 m1
      ∧ m1.VN 0xF = 0 ∧ m1.VN 0xF ≠ 1 :=
  ⟨by decide, by decide, _, rfl, by decide, by decide⟩

/-- C13 (amended): one step on `8xy5` with `x ≠ 0xF` returns 0 and leaves
`V[F] = 1` if old `V[x] > V[y]` and `0` otherwise (so `V[F] = 0` when the two
are equal); when moreover `y ≠ 0xF` it leaves
`V[x] = (old V[x] - old V[y]) mod 256`. -/
theorem sub_strict_flag (env : Env) (m : Machine) (x y : Nat) (hx : x < 16) (hy : y < 16)
    (hxF : x ≠ 0xF)
    (hop : wordAt m m.PC = some (0x8005 + 0x100 * x + 0x10 * y)) :
    ∃ m1, run_instruction env m = Outcome.ret 0 m1
      ∧ m1.VN 0xF = (if m.VN x > m.VN y then 1 else 0)
      ∧ (m.VN x = m.VN y → m1.VN 0xF = 0)
      ∧ (y ≠ 0xF → (m1.VN x : Int) = ((m.VN x : Int) - (m.VN y : Int)) % 256) := by
  have hfam : (0x8005 + 0x100 * x + 0x10 * y) &&& 0xF000 = 0x8000 := by rw [and_F000]; omega
  have hn : (0x8005 + 0x100 * x + 0x10 * y) &&& 0x000F = 0x5 := by rw [and_000F]; omega
  have hfx : ((0x8005 + 0x100 * x + 0x10 * y) &&& 0x0F00) >>> 8 = x := by rw [field_x]; omega
  have hfy : ((0x8005 + 0x100 * x + 0x10 * y) &&& 0x00F0) >>> 4 = y := by rw [field_y]; omega
  have h1 := run_of_wordAt env hop
  rw [execute_sub env _ m hfam hn, hfx, hfy] at h1
  have hne : ¬ (0xF = x) := fun h => hxF h.symm
  have hflagF : ∀ c : Bool, (setFlag m c).VN 0xF = if c then 1 else 0 := by
    intro c
    simp [setFlag, setAt]
  have hflagx : ∀ c : Bool, (setFlag m c).VN x = m.VN x := by
    intro c
    simp [setFlag, setAt, hxF]
  have hvf : ∀ v : Nat, (setAt (setFlag m (decide (m.VN x > m.VN y))).VN x v) 0xF
      = if m.VN x > m.VN y then 1 else 0 := by
    intro v
    simp only [setAt, if_neg hne]
    rw [hflagF]
    by_cases hc : m.VN x > m.VN y <;> simp [hc]
  refine ⟨_, h1, hvf _, ?_, ?_⟩
  · intro heq
    show (setAt _ x _) 0xF = 0
    rw [hvf, heq]
    simp
  · intro hyF
    have hflagy : (setFlag m (decide (m.VN x > m.VN y))).VN y = m.VN y := by
      simp [setFlag, setAt, hyF]
    show ((setAt (setFlag m (decide (m.VN x > m.VN y))).VN x _ x : Nat) : Int) = _
    simp only [setAt, if_true]
    rw [toUChar_cast, hflagx, hflagy]

/-- The subtraction step on `subBorrowMachine` (`8125`, `V[1] = 3`, `V[2] = 5`). -/
theorem sub_strict_flag_witness :
    wordAt subBorrowMachine subBorrowMachine.PC = some (0x8005 + 0x100 * 1 + 0x10 * 2)
    ∧ ∃ m1, run_instruction quietEnv subBorrowMachine = Outcome.ret 0 m1
      ∧ m1.VN 0xF = (if subBorrowMachine.VN 1 > subBorrowMachine.VN 2 then 1 else 0)
      ∧ (subBorrowMachine.VN 1 = subBorrowMachine.VN 2 → m1.VN 0xF = 0)
      ∧ ((2 : Nat) ≠ 0xF →
          (m1.VN 1 : Int) = ((subBorrowMachine.VN 1 : Int) - (subBorrowMachine.VN 2 : Int)) % 256) :=
  ⟨by decide, sub_strict_flag quietEnv subBorrowMachine 1 2 (by decide) (by decide) (by decide)
    (by decide)⟩

/-- C14 (defect): `810E` with `V[1] = 0x80` returns 0 and leaves `V[F] = 0`,
the lowest bit of the old `V[x]`, where the highest bit `(V[x] >> 7) AND 1`
is 1; `V[x]` becomes `(0x80 * 2) mod 256 = 0`. -/
theorem shift_left_flag_defect :
    wordAt shiftLeftMachine shiftLeftMachine.PC = some 0x810E
    ∧ (shiftLeftMachine.VN 1 >>> 7) &&& 1 = 1
    ∧ ∃ m1, run_instruction quietEnv shiftLeftMachine = Outcome.ret 0 m1
      ∧ m1.VN 0xF = 0 ∧ m1.VN 0xF = shiftLeftMachine.VN 1 % 2
      ∧ m1.VN 1 = (shiftLeftMachine.VN 1 * 2) % 256 :=
  ⟨by decide, by decide, _, rfl, by decide, by decide, by decide⟩

/-- C15 (defect): `F129` with `V[1] = 2` and `I = 0x300` returns 0 and leaves
`I = 0x302`, the old `I` plus `V[x]`, not `V[x] * 5 = 10`, the address of the
glyph of digit 2. -/
theorem glyph_address_defect :
    wordAt glyphMachine glyphMachine.PC = some 0xF129
    ∧ glyphMachine.VN 1 = 2 ∧ glyphMachine.I = 0x300
    ∧ glyphMachine.memory (2 * 5) = FONTSET.getD (2 * 5) 0
    ∧ ∃ m1, run_instruction quietEnv glyphMachine = Outcome.ret 0 m1
      ∧ m1.I = 0x302 ∧ m1.I ≠ glyphMachine.VN 1 * 5 :=
  ⟨by decide, by decide, by decide, by decide, _, rfl, by decide, by decide⟩

/-- C16 (defect): `B300` with `V[0] = 4` returns 0 and leaves `PC = 0x306`:
the case ends in `break`, so the final `PC += 2` is added to `nnn + V[0]`. -/
theorem jump_offset_defect :
    wordAt jumpOffsetMachine jumpOffsetMachine.PC = some 0xB300
    ∧ jumpOffsetMachine.VN 0 = 4
    ∧ ∃ m1, run_instruction quietEnv jumpOffsetMachine = Outcome.ret 0 m1
      ∧ m1.PC = 0x306 ∧ m1.PC ≠ 0x300 + jumpOffsetMachine.VN 0 :=
  ⟨by decide, by decide, _, rfl, by decide, by decide⟩

/-- C17 (as stated, refuted): the word `5001` is in no row of the
instruction table (it is a `5xy1`), yet the step treats it as `5xy0`: with
`x = y = 0` the registers compare equal and `PC` advances by 4, not by 2. -/
theorem unknown_word_skip_counterexample :
    wordAt oddSkipMachine oddSkipMachine.PC = some 0x5001
    ∧ oddSkipMachine.PC = 0x200
    ∧ ∃ m1, run_instruction quietEnv oddSkipMachine = Outcome.ret 0 m1
      ∧ m1.PC = 0x204 ∧ m1.PC ≠ oddSkipMachine.PC + 2 :=
  ⟨by decide, by decide, _, rfl, by decide, by decide⟩

/-- C17 (amended): for every word that reaches a `default:` branch (`0nnn`
whose low byte is neither `E0` nor `EE`, `8xy8 .. 8xyD`, `8xyF`, `Exkk` other
than `Ex9E`/`ExA1`, `Fxkk` with `kk` outside `07, 0A, 15, 18, 1E, 29, 33, 55,
65`), one step returns 0, advances `PC` by exactly 2 and leaves every other
field of the machine unchanged. -/
theorem default_branch_skips (env : Env) (m : Machine) (op : Nat)
    (hop : wordAt m m.PC = some op) (hsk : skippedWord op) :
    run_instruction env m = Outcome.ret 0 { m with PC := m.PC + 2 } := by
  have hb := wordAt_bound hop
  have hpc : (m.PC + 2) % UINT_MOD = m.PC + 2 := by
    apply Nat.mod_eq_of_lt
    simp only [UINT_MOD]
    omega
  rw [run_of_wordAt env hop]
  have hadv : advance m = Outcome.ret 0 { m with PC := m.PC + 2 } := by
    simp only [advance, hpc]
  rw [← hadv]
  rcases hsk with ⟨hf, h1, h2⟩ | ⟨hf, h1, h2⟩ | ⟨hf, h1, h2⟩ |
    ⟨hf, h1, h2, h3, h4, h5, h6, h7, h8, h9⟩
  · have hfam : op &&& 0xF000 = 0x0000 := by rw [and_F000]; omega
    unfold execute
    simp [hfam, and_00FF, h1, h2]
  · have hfam : op &&& 0xF000 = 0x8000 := by rw [and_F000]; omega
    have n0 : op % 16 ≠ 0 := by omega
    have n1 : op % 16 ≠ 1 := by omega
    have n2 : op % 16 ≠ 2 := by omega
    have n3 : op % 16 ≠ 3 := by omega
    have n4 : op % 16 ≠ 4 := by omega
    have n5 : op % 16 ≠ 5 := by omega
    have n6 : op % 16 ≠ 6 := by omega
    have n7 : op % 16 ≠ 7 := by omega
    unfold execute
    simp [hfam, and_000F, n0, n1, n2, n3, n4, n5, n6, n7, h2]
  · have hfam : op &&& 0xF000 = 0xE000 := by rw [and_F000]; omega
    unfold execute
    simp [hfam, and_00FF, h1, h2]
  · have hfam : op &&& 0xF000 = 0xF000 := by rw [and_F000]; omega
    unfold execute
    simp [hfam, and_00FF, h1, h2, h3, h4, h5, h6, h7, h8, h9]

/-- The skipped word `8128` on `unknownMachine`. -/
theorem default_branch_skips_witness :
    (wordAt unknownMachine unknownMachine.PC = some 0x8128 ∧ skippedWord 0x8128)
    ∧ run_instruction quietEnv unknownMachine
        = Outcome.ret 0 { unknownMachine with PC := unknownMachine.PC + 2 } :=
  ⟨⟨by decide, by decide⟩,
    default_branch_skips quietEnv unknownMachine 0x8128 (by decide) (by decide)⟩

/-- C18 (defect): `D011` with `V[0] = 60`, `V[1] = 0` and the sprite row
`0xFF`: bit 4 of the row is set and its column index `4 + 60 = 64` is not
reduced modulo 64, so the step indexes `screen[64][0]`, outside
`screen[64][32]`, instead of toggling the pixel at column `(60 + 4) mod 64 = 0`. -/
theorem draw_indexes_outside_grid :
    wordAt edgeSpriteMachine edgeSpriteMachine.PC = some 0xD011
    ∧ edgeSpriteMachine.VN 0 = 60 ∧ edgeSpriteMachine.VN 1 = 0
    ∧ edgeSpriteMachine.memory edgeSpriteMachine.I = 0xFF
    ∧ 0xFF &&& (0x80 >>> 4) ≠ 0
    ∧ ¬ (4 + edgeSpriteMachine.VN 0 < SCREEN_COLS)
    ∧ draw_bit 0xFF 60 0 0 4 edgeSpriteMachine = none
    ∧ run_instruction quietEnv edgeSpriteMachine = Outcome.undefined :=
  ⟨by decide, by decide, by decide, by decide, by decide, by decide, rfl, rfl⟩

/-- C19 (defect): `F055` with `I = 0xFFF` (so `I + x ≤ 0xFFF` for `x = 0`)
stores to `memory[0xFFF]`, which is outside the array `memory[0xFFF]` of
`0xFFF = 4095` cells: address `0xFFF` is not a cell of the machine memory. -/
theorem last_address_outside_memory :
    MEMORY_SIZE = 4095
    ∧ wordAt lastCellMachine lastCellMachine.PC = some 0xF055
    ∧ lastCellMachine.I + 0 ≤ 0xFFF
    ∧ ¬ (lastCellMachine.I + 0 < MEMORY_SIZE)
    ∧ store_regs 1 lastCellMachine = none
    ∧ load_regs 1 lastCellMachine = none
    ∧ run_instruction quietEnv lastCellMachine = Outcome.undefined :=
  ⟨by decide, by decide, by decide, by decide, rfl, rfl, rfl⟩

/-- C20 (defect): the macro `UPDATE_FREQUENCY` is `1 / 60 * 10000000`, which
is 0 in `int` arithmetic (and not `10 ^ 9 / 60 = 16666666`), so the timers are
decremented as soon as the elapsed time is not negative: after one nanosecond
`DT` and `ST` have already been decremented. -/
theorem update_frequency_is_zero :
    UPDATE_FREQUENCY = 0
    ∧ (10 ^ 9 / 60 : Int) = 16666666
    ∧ UPDATE_FREQUENCY ≠ 16666666
    ∧ timerMachine.DT = 5 ∧ timerMachine.ST = 3
    ∧ (update_timers 1 timerMachine).DT = 4
    ∧ (update_timers 1 timerMachine).ST = 2 :=
  ⟨by decide, by decide, by decide, by decide, by decide, by decide, by decide⟩

end Chip8
